import Mathlib

/-!
Verification of the comfy2go client library against its specification.

The Go sources are shallowly embedded below: pure helpers become Lean
functions, mutation of widget payloads becomes explicit state passing on a
`Store`, Go maps become association lists with insert-overwrite semantics,
and fallible code returns `Option` or `Except`.  Machine integers (`int64`)
are modelled as `Int` with explicit range handling where the Go code can
overflow, and the `float64` round trips that the Go code performs on
integers are modelled by an explicit round-to-nearest-even function at 53
bits of precision.
-/

namespace Comfy2go

/-! ## Go primitives: string conversion and float64 rounding -/

/-- Decimal digit accumulator used by the model of `strconv.ParseInt`. -/
def parseDigitsAux : List Char → Nat → Option Nat
  | [], acc => some acc
  | c :: cs, acc =>
    if c.isDigit then parseDigitsAux cs (acc * 10 + (c.toNat - 48)) else none

/-- Model of Go `strconv.ParseInt(s, 10, 64)` (and `strconv.Atoi` on a
64-bit platform): an optional sign followed by at least one decimal digit,
rejecting the empty string, any non-digit character, and values outside
the `int64` range (Go reports `ErrRange`, which every call site in this
repository treats as failure). -/
def goParseInt64 (s : String) : Option Int :=
  match s.data with
  | [] => none
  | c :: cs =>
    let signDigits : Bool × List Char :=
      if c = '-' then (true, cs) else if c = '+' then (false, cs) else (false, c :: cs)
    match signDigits.2 with
    | [] => none
    | ds =>
      match parseDigitsAux ds 0 with
      | none => none
      | some n =>
        let v : Int := if signDigits.1 then -(n : Int) else (n : Int)
        if v < -(2 ^ 63) ∨ 2 ^ 63 ≤ v then none else some v

/-- Model of Go `strconv.ParseBool`, which accepts exactly these twelve
string forms. -/
def goParseBool (s : String) : Option Bool :=
  if s = "1" ∨ s = "t" ∨ s = "T" ∨ s = "TRUE" ∨ s = "true" ∨ s = "True" then some true
  else if s = "0" ∨ s = "f" ∨ s = "F" ∨ s = "FALSE" ∨ s = "false" ∨ s = "False" then some false
  else none

/-- Base-2 logarithm by bounded halving; agrees with `Nat.log2` for every
`n < 2 ^ 64`, which covers all uses below. -/
def log2Fuel : Nat → Nat → Nat
  | 0, _ => 0
  | fuel + 1, n => if 2 ≤ n then log2Fuel fuel (n / 2) + 1 else 0

/-- The position of the most significant bit of `n` (for `n < 2 ^ 64`). -/
def natLog2 (n : Nat) : Nat := log2Fuel 64 n

/-- Round a natural number to the nearest `float64` value (53 significant
bits, ties to even).  Models the Go conversion `float64(n)` for
non-negative integers up to the `int64`/`uint64` range. -/
def f64roundNat (n : Nat) : Nat :=
  if n ≤ 2 ^ 53 then n
  else
    let b := natLog2 n
    let e := b - 52
    let q := n / 2 ^ e
    let r := n % 2 ^ e
    let half := 2 ^ (e - 1)
    if half < r ∨ (r = half ∧ q % 2 = 1) then (q + 1) * 2 ^ e else q * 2 ^ e

/-- Exact value of the `float64` nearest to the integer `z`; models the Go
conversion `float64(z)` for an `int64` argument. -/
def f64round (z : Int) : Int :=
  if z < 0 then -(f64roundNat z.natAbs : Int) else (f64roundNat z.natAbs : Int)

/-- Model of the Go conversion `int64(f)` applied to a `float64` whose
value is the integer `z`.  In range the conversion is exact; out of range
Go leaves the result implementation-dependent, and on the amd64/arm64
targets the repository runs on the result is `math.MinInt64`. -/
def int64ofF64 (z : Int) : Int :=
  if z < -(2 ^ 63) ∨ 2 ^ 63 ≤ z then -(2 ^ 63) else z

/-- The range-clamping step of `IntProperty.valueFromString`
(graphapi/properties.go): `v = int64(math.Min(float64(p.Max), float64(v)))`
followed by `v = int64(math.Max(float64(p.Min), float64(v)))`, with every
`float64` round trip modelled explicitly. -/
def intRangeClamp (pMin pMax v : Int) : Int :=
  let v1 := int64ofF64 (min (f64round pMax) (f64round v))
  int64ofF64 (max (f64round pMin) (f64round v1))

/-- Mathematical clamp used by the specification: `v` when `lo ≤ v ≤ hi`,
`lo` when `v < lo`, `hi` when `hi < v`.  Stated from the spec text, for
comparison with the Go implementation `intRangeClamp`. -/
def specClamp (lo hi v : Int) : Int :=
  if v < lo then lo else if hi < v then hi else v

/-! ## Property system state (graphapi/properties.go)

A property's mutable surroundings are the widget payload of its target
node, the direct-value cells that `SetDirectValue` can point it at, and
the states of its secondary properties (which live in other nodes'
payloads).  The `Store` below collects the widget payloads (indexed by a
node handle) and the direct cells (indexed by a cell handle), so that a
`SetValue` call is a function from `Store` to `Store`. -/

/-- A dynamically typed Go value as it appears in widget payloads.
`float64` widget values do not occur in any claim and are not modelled. -/
inductive GoValue where
  | vInt (n : Int)
  | vStr (s : String)
  | vBool (b : Bool)
  | vNil
deriving DecidableEq, Repr

/-- Model of `fmt.Sprintf("%v", x)` on the modelled value kinds. -/
def goSprintV : GoValue → String
  | .vInt n => toString n
  | .vStr s => s
  | .vBool b => if b then "true" else "false"
  | .vNil => "<nil>"

/-- The polymorphic `widgets_values` payload of a node: either an ordered
array of scalars, a map from widget name to scalar, or absent (Go `nil`). -/
inductive WidgetPayload where
  | arrP (l : List GoValue)
  | mapP (m : List (String × GoValue))
  | nilP
deriving DecidableEq, Repr

/-- Insert-or-overwrite into a string-keyed association list; models
assignment into a Go `map[string]V`. -/
def upsertS {α : Type} (k : String) (v : α) : List (String × α) → List (String × α)
  | [] => [(k, v)]
  | (k0, v0) :: rest => if k0 = k then (k, v) :: rest else (k0, v0) :: upsertS k v rest

/-- Lookup in a string-keyed association list; models reading a Go
`map[string]V`. -/
def lookupS {α : Type} (m : List (String × α)) (k : String) : Option α :=
  (m.find? (fun p => p.1 = k)).map (·.2)

/-- Insert-or-overwrite into an `Int`-keyed association list; models
assignment into a Go `map[int]V`. -/
def upsertI {α : Type} (k : Int) (v : α) : List (Int × α) → List (Int × α)
  | [] => [(k, v)]
  | (k0, v0) :: rest => if k0 = k then (k, v) :: rest else (k0, v0) :: upsertI k v rest

/-- Lookup in an `Int`-keyed association list. -/
def lookupI {α : Type} (m : List (Int × α)) (k : Int) : Option α :=
  (m.find? (fun p => p.1 = k)).map (·.2)

/-- List update at a Go `int` index: out-of-range writes (which would
panic in Go) leave the list unchanged. -/
def listSetInt {α : Type} (l : List α) (i : Int) (v : α) : List α :=
  if 0 ≤ i then l.set i.toNat v else l

/-- List read at a Go `int` index: out-of-range reads (which would panic
in Go) return `none`. -/
def listGetInt {α : Type} (l : List α) (i : Int) : Option α :=
  if 0 ≤ i then l.get? i.toNat else none

/-- The mutable state a property system call can touch: every node's
widget payload (indexed by node handle) and every direct-value cell
(indexed by cell handle). -/
structure Store where
  nodes : List WidgetPayload
  cells : List GoValue
deriving DecidableEq, Repr

/-- Replace the widget payload of node handle `nid`. -/
def Store.setNode (st : Store) (nid : Nat) (p : WidgetPayload) : Store :=
  { st with nodes := st.nodes.set nid p }

/-- Replace the content of direct cell `cid`. -/
def Store.setCell (st : Store) (cid : Nat) (v : GoValue) : Store :=
  { st with cells := st.cells.set cid v }

/-- Kind-specific data of a property (the non-`BaseProperty` fields of the
Go property variants that the claims exercise; `FloatProperty` is not
exercised by any claim and is not modelled). -/
inductive PropKind where
  | intP (pMin pMax : Int) (hasRange : Bool)
  | stringP
  | boolP
  | comboP (values : List String) (isBool : Bool)
  | cascadeP
  | imageUploadP
  | unknownP (typeName : String)
deriving DecidableEq, Repr

/-- The `BaseProperty` fields shared by all property variants
(graphapi/properties.go).  `directCell` models `direct_value` (a pointer
into a widget-value slot), `targetNode`/`targetIndex` model
`target_node`/`target_value_index`, and `override` models
`override_property`. -/
structure PropCore where
  name : String
  optional : Bool
  serializable : Bool
  override : Option GoValue
  index : Int
  directCell : Option Nat
  targetNode : Option Nat
  targetIndex : Int
  aliasName : String
deriving DecidableEq, Repr

/-- A property together with its attached secondary properties. -/
inductive Property where
  | mk (core : PropCore) (kind : PropKind) (secondaries : List Property)

/-- The `BaseProperty` fields of a property. -/
def Property.core : Property → PropCore
  | .mk c _ _ => c

/-- The kind-specific data of a property. -/
def Property.kind : Property → PropKind
  | .mk _ k _ => k

/-- The secondaries attached to a property. -/
def Property.secondaries : Property → List Property
  | .mk _ _ s => s

/-- The property's input name (Go `Name()`). -/
def Property.name (p : Property) : String := p.core.name

/-- Go `TypeString()` of each property variant. -/
def PropKind.typeString : PropKind → String
  | .intP _ _ _ => "INT"
  | .stringP => "STRING"
  | .boolP => "BOOLEAN"
  | .comboP _ _ => "COMBO"
  | .cascadeP => "CASCADE"
  | .imageUploadP => "IMAGEUPLOAD"
  | .unknownP t => t

/-- The kind-specific `valueFromString` implementations
(graphapi/properties.go): INT parses base-10 and clamps through `float64`
when a range is declared; STRING is the identity; BOOLEAN uses
`strconv.ParseBool`; COMBO lowercases for the bool form and otherwise
requires membership in its value list; CASCADE, IMAGEUPLOAD and UNKNOWN
always reject. -/
def PropKind.valueFromString : PropKind → String → Option GoValue
  | .intP mn mx hr, s =>
    (goParseInt64 s).map (fun v => .vInt (if hr then intRangeClamp mn mx v else v))
  | .stringP, s => some (.vStr s)
  | .boolP, s => (goParseBool s).map .vBool
  | .comboP vals isBool, s =>
    if isBool then some (.vBool (s.toLower = "true"))
    else if vals.contains s then some (.vStr s) else none
  | .cascadeP, _ => none
  | .imageUploadP, _ => none
  | .unknownP _, _ => none

/-- The conversion performed by `BaseProperty.SetValue` before writing: the
incoming value is rendered with `fmt.Sprintf` and re-parsed by the kind's
`valueFromString`.  For an `int64` input to an INT property the
`Sprintf`/`ParseInt` round trip is the identity on the decimal rendering,
which this model encodes directly; every other case is the literal
composition of `goSprintV` with `valueFromString`. -/
def valueFromGo (k : PropKind) (v : GoValue) : Option GoValue :=
  match k, v with
  | .intP mn mx hr, .vInt n => some (.vInt (if hr then intRangeClamp mn mx n else n))
  | k, v => k.valueFromString (goSprintV v)

/-- The widget write performed by `BaseProperty.SetValue` when a target
node is bound: index assignment into an array payload, keyed assignment
into a map payload.  A `nil` payload would make the Go code panic
(assignment into a nil map); the model leaves the store unchanged there. -/
def Store.writeWidget (st : Store) (nid : Nat) (name : String) (idx : Int) (val : GoValue) : Store :=
  match st.nodes.get? nid with
  | some (.arrP l) => st.setNode nid (.arrP (listSetInt l idx val))
  | some (.mapP m) => st.setNode nid (.mapP (upsertS name val m))
  | _ => st

/-- Go `BaseProperty.GetValue`: override first, then the direct cell, then
the bound widget slot (array by index, map by property name), else `nil`.
Go returns the `*interface{}` pointer for a direct cell; the model returns
the cell's content. -/
def getValue (p : Property) (st : Store) : GoValue :=
  match p.core.override with
  | some o => o
  | none =>
    match p.core.directCell with
    | some cid => (st.cells.get? cid).getD .vNil
    | none =>
      match p.core.targetNode with
      | some nid =>
        match st.nodes.get? nid with
        | some (.arrP l) => (listGetInt l p.core.targetIndex).getD .vNil
        | some (.mapP m) => (lookupS m p.core.name).getD .vNil
        | _ => .vNil
      | none => .vNil

mutual

/-- Go `BaseProperty.SetValue`: convert the value via the kind-specific
parse; a failed parse returns an error before any write.  On success the
parsed value is written to the direct cell (returning immediately) or to
the bound widget slot, and then pushed through every secondary property in
order, stopping at the first secondary error.  An unbound property
errors. -/
def setValue : Property → GoValue → Store → Except String Unit × Store
  | .mk core kind secs, v, st =>
    match valueFromGo kind v with
    | none => (.error "could not get converted type", st)
    | some val =>
      match core.directCell with
      | some cid => (.ok (), st.setCell cid val)
      | none =>
        match core.targetNode with
        | some nid => setValueList secs val (st.writeWidget nid core.name core.targetIndex val)
        | none => (.error "property has no target node", st)

/-- The secondaries loop of `BaseProperty.SetValue`. -/
def setValueList : List Property → GoValue → Store → Except String Unit × Store
  | [], _, st => (.ok (), st)
  | p :: ps, v, st =>
    match setValue p v st with
    | (.error e, st1) => (.error e, st1)
    | (.ok _, st1) => setValueList ps v st1

end

/-- Go `ComboProperty.Append`: no-op for the bool form; otherwise add the
value to the combo's value list when absent, then `SetValue` it.  The
combo's value list is part of the property, so the updated property is
returned alongside the store. -/
def comboAppend (p : Property) (newValue : String) (st : Store) : Property × Store :=
  match p with
  | .mk core (.comboP vals isBool) secs =>
    if isBool then (p, st)
    else
      let vals1 := if vals.contains newValue then vals else vals ++ [newValue]
      let p1 := Property.mk core (.comboP vals1 isBool) secs
      (p1, (setValue p1 (.vStr newValue) st).2)
  | _ => (p, st)

/-- Go `newImageUploadProperty` (graphapi/properties.go): the override is
set to `target.name` — the bound COMBO property's input name — at
construction time. -/
def newImageUploadProperty (inputName : String) (target : Property) (index : Int) : Property :=
  .mk
    { name := inputName, optional := false, serializable := true,
      override := some (.vStr target.name), index := index,
      directCell := none, targetNode := none, targetIndex := -1, aliasName := "" }
    .imageUploadP []

/-- Go `ImageUploadProperty.SetFilename`: append the filename to the bound
COMBO (which also sets the combo's value).  Returns the updated combo. -/
def setFilename (target : Property) (filename : String) (st : Store) : Property × Store :=
  comboAppend target filename st

/-! ## A JSON value model

Used for the wire shapes the claims mention: link tuples and objects
(graphapi/link.go), the `POST /prompt` response body (QueuePrompt), and
the node-catalogue input descriptors (graphapi/nodeobjects.go).  JSON
numbers in the workflows and bodies at issue are integers; they are
modelled as `Int`, and the places where Go decodes them through `float64`
apply `f64round` explicitly. -/

/-- A JSON value. -/
inductive JVal where
  | jnum (n : Int)
  | jstr (s : String)
  | jbool (b : Bool)
  | jarr (l : List JVal)
  | jobj (fields : List (String × JVal))
  | jnull

/-! ## Link codec (graphapi/link.go) -/

/-- In-memory `Link`: a directed edge with an identity and a type tag.
`isObjectFormat` remembers which wire shape the link was decoded from
(`false` for the 6-tuple, which is also the default for links created in
memory). -/
structure Link where
  id : Int
  originID : Int
  originSlot : Int
  targetID : Int
  targetSlot : Int
  type : String
  isObjectFormat : Bool
deriving DecidableEq, Repr

/-- A `Link` value freshly created in memory: Go zero value, in particular
`isObjectFormat = false`. -/
def Link.fresh (id o os t ts : Int) (ty : String) : Link :=
  { id := id, originID := o, originSlot := os, targetID := t, targetSlot := ts,
    type := ty, isObjectFormat := false }

/-- Element conversion in the tuple branch of `Link.UnmarshalJSON`:
`int(tmp[i].(float64))`.  `encoding/json` materialises a JSON number as the
nearest `float64`, and a non-number makes the unchecked type assertion
panic (modelled as a decode failure). -/
def linkTupleField : JVal → Option Int
  | .jnum n => some (int64ofF64 (f64round n))
  | _ => none

/-- Decoding a JSON number into a Go `int` struct field: exact, failing on
`int64` overflow (`encoding/json` reports an `UnmarshalTypeError`). -/
def intField : JVal → Option Int
  | .jnum n => if n < -(2 ^ 63) ∨ 2 ^ 63 ≤ n then none else some n
  | _ => none

/-- The object branch of `Link.UnmarshalJSON`: decode into a struct with
fields `id`, `origin_id`, `origin_slot`, `target_id`, `target_slot` (Go
`int`) and `type` (string).  Unknown keys are ignored, `null` leaves a
field at its zero value, and a type mismatch fails the decode. -/
def unmarshalLinkObjFields : List (String × JVal) → Link → Option Link
  | [], l => some l
  | (k, v) :: rest, l =>
    if k = "id" then
      match v with
      | .jnull => unmarshalLinkObjFields rest l
      | v => match intField v with
             | some n => unmarshalLinkObjFields rest { l with id := n }
             | none => none
    else if k = "origin_id" then
      match v with
      | .jnull => unmarshalLinkObjFields rest l
      | v => match intField v with
             | some n => unmarshalLinkObjFields rest { l with originID := n }
             | none => none
    else if k = "origin_slot" then
      match v with
      | .jnull => unmarshalLinkObjFields rest l
      | v => match intField v with
             | some n => unmarshalLinkObjFields rest { l with originSlot := n }
             | none => none
    else if k = "target_id" then
      match v with
      | .jnull => unmarshalLinkObjFields rest l
      | v => match intField v with
             | some n => unmarshalLinkObjFields rest { l with targetID := n }
             | none => none
    else if k = "target_slot" then
      match v with
      | .jnull => unmarshalLinkObjFields rest l
      | v => match intField v with
             | some n => unmarshalLinkObjFields rest { l with targetSlot := n }
             | none => none
    else if k = "type" then
      match v with
      | .jnull => unmarshalLinkObjFields rest l
      | .jstr s => unmarshalLinkObjFields rest { l with type := s }
      | _ => none
    else unmarshalLinkObjFields rest l

/-- Go `Link.UnmarshalJSON`: try the 6-tuple form first (any JSON array is
accepted by the first `json.Unmarshal`, then the length is checked and the
five numeric fields are read through `float64`; the type tag uses a
checked assertion, so a non-string tag yields `""`).  A non-array body is
decoded in the object form with `isObjectFormat` set. -/
def unmarshalLink : JVal → Option Link
  | .jarr tmp =>
    if tmp.length ≠ 6 then none
    else
      match tmp with
      | [a, b, c, d, e, f] =>
        match linkTupleField a, linkTupleField b, linkTupleField c,
              linkTupleField d, linkTupleField e with
        | some id, some o, some os, some t, some ts =>
          let ty := match f with | .jstr s => s | _ => ""
          some { id := id, originID := o, originSlot := os, targetID := t,
                 targetSlot := ts, type := ty, isObjectFormat := false }
        | _, _, _, _, _ => none
      | _ => none
  | .jobj fields =>
    unmarshalLinkObjFields fields
      { id := 0, originID := 0, originSlot := 0, targetID := 0, targetSlot := 0,
        type := "", isObjectFormat := true }
  | _ => none

/-- Go `Link.MarshalJSON`: the object shape when the link was decoded from
an object, otherwise the 6-tuple.  `json.Marshal` renders Go ints
exactly. -/
def marshalLink (l : Link) : JVal :=
  if l.isObjectFormat then
    .jobj [("id", .jnum l.id), ("origin_id", .jnum l.originID),
           ("origin_slot", .jnum l.originSlot), ("target_id", .jnum l.targetID),
           ("target_slot", .jnum l.targetSlot), ("type", .jstr l.type)]
  else
    .jarr [.jnum l.id, .jnum l.originID, .jnum l.originSlot, .jnum l.targetID,
           .jnum l.targetSlot, .jstr l.type]

/-- The canonical object wire form of a link, as written by the visual
editor inside `definitions.subgraphs[..].links`. -/
def linkObjWire (id o os t ts : Int) (ty : String) : JVal :=
  .jobj [("id", .jnum id), ("origin_id", .jnum o), ("origin_slot", .jnum os),
         ("target_id", .jnum t), ("target_slot", .jnum ts), ("type", .jstr ty)]

/-- The 6-tuple wire form of a link, as written at the top level of a
workflow. -/
def linkTupleWire (id o os t ts : Int) (ty : String) : JVal :=
  .jarr [.jnum id, .jnum o, .jnum os, .jnum t, .jnum ts, .jstr ty]

/-! ## QueuePrompt response handling (ComfyClient.QueuePrompt) -/

/-- The JSON-visible fields of `QueueItem` (client/queueitem.go):
`prompt_id`, `number`, `node_errors`. -/
structure QueueItemRec where
  promptID : String
  number : Int
  nodeErrors : Option (List (String × JVal))

/-- Field loop of `json.Unmarshal` into `QueueItem`: `prompt_id` must be a
string, `number` an integer, `node_errors` an object (its field type is
`map[string]interface{}`, so a JSON array there fails).  Unknown keys —
including `"error"` — are ignored; `null` leaves the field alone. -/
def unmarshalQueueItemFields : List (String × JVal) → QueueItemRec → Option QueueItemRec
  | [], r => some r
  | (k, v) :: rest, r =>
    if k = "prompt_id" then
      match v with
      | .jnull => unmarshalQueueItemFields rest r
      | .jstr s => unmarshalQueueItemFields rest { r with promptID := s }
      | _ => none
    else if k = "number" then
      match v with
      | .jnull => unmarshalQueueItemFields rest r
      | v => match intField v with
             | some n => unmarshalQueueItemFields rest { r with number := n }
             | none => none
    else if k = "node_errors" then
      match v with
      | .jnull => unmarshalQueueItemFields rest r
      | .jobj m => unmarshalQueueItemFields rest { r with nodeErrors := some m }
      | _ => none
    else unmarshalQueueItemFields rest r

/-- `json.Unmarshal(body, &item)` for the `QueueItem` success type. -/
def unmarshalQueueItem : JVal → Option QueueItemRec
  | .jobj fields =>
    unmarshalQueueItemFields fields { promptID := "", number := 0, nodeErrors := none }
  | _ => none

/-- The fields of `PromptErrorMessage` (client/dataitems.go) that
`QueuePrompt` reads. -/
structure PromptErrorRec where
  errType : String
  message : String
deriving DecidableEq, Repr

/-- Field loop of `json.Unmarshal` into the `PromptError` struct:
`type` and `message` must be strings; `details` and `extra_info` are not
read by `QueuePrompt` and unknown keys are ignored. -/
def unmarshalPromptErrorFields : List (String × JVal) → PromptErrorRec → Option PromptErrorRec
  | [], r => some r
  | (k, v) :: rest, r =>
    if k = "type" then
      match v with
      | .jnull => unmarshalPromptErrorFields rest r
      | .jstr s => unmarshalPromptErrorFields rest { r with errType := s }
      | _ => none
    else if k = "message" then
      match v with
      | .jnull => unmarshalPromptErrorFields rest r
      | .jstr s => unmarshalPromptErrorFields rest { r with message := s }
      | _ => none
    else unmarshalPromptErrorFields rest r

/-- `json.Unmarshal(body, &perror)` for `PromptErrorMessage`: an `error`
object field holding `type`/`message`, and `node_errors` of slice type
(an object there would fail; absent or `null` is fine). -/
def unmarshalPromptErrorMessage : JVal → Option PromptErrorRec
  | .jobj fields =>
    let rec loop : List (String × JVal) → PromptErrorRec → Option PromptErrorRec
      | [], r => some r
      | (k, v) :: rest, r =>
        if k = "error" then
          match v with
          | .jnull => loop rest r
          | .jobj efields =>
            match unmarshalPromptErrorFields efields r with
            | some r1 => loop rest r1
            | none => none
          | _ => none
        else if k = "node_errors" then
          match v with
          | .jnull => loop rest r
          | .jarr _ => loop rest r
          | _ => none
        else loop rest r
    loop fields { errType := "", message := "" }
  | _ => none

/-- The response-handling tail of `ComfyClient.QueuePrompt`
(after `POST /prompt` returns `body`): unmarshal the body as a
`QueueItem`; on success install it in the registry under its prompt
identifier and return it.  Only if that unmarshal fails is the body
re-read as an error envelope, whose message becomes the returned error;
if even that fails the original unmarshal error is returned.  The second
component is the registry key registered, if any. -/
def queuePromptHandleResponse (body : JVal) : Except String QueueItemRec × Option String :=
  match unmarshalQueueItem body with
  | some item => (.ok item, some item.promptID)
  | none =>
    match unmarshalPromptErrorMessage body with
    | none => (.error "unmarshal error", none)
    | some pe => (.error pe.message, none)

/-! ## Event-channel message decoding (client/wsstatusmessages.go) -/

/-- The decoded `executing` frame: Go declares `Node *int`. -/
structure WSExecutingRec where
  node : Option Int
  promptID : String
deriving DecidableEq, Repr

/-- Go `WSMessageDataExecuting.UnmarshalJSON`: the wire carries the node
identifier as a string (or `null`); the code converts it with
`strconv.Atoi` and fails the whole decode when the identifier is not a
plain integer. -/
def unmarshalExecuting (nodeField : Option String) (pid : String) : Except String WSExecutingRec :=
  match nodeField with
  | none => .ok { node := none, promptID := pid }
  | some s =>
    match goParseInt64 s with
    | none => .error "invalid syntax"
    | some i => .ok { node := some i, promptID := pid }

/-- The node/prompt part of the decoded `executed` frame: Go declares
`Node int`. -/
structure WSExecutedRec where
  node : Int
  promptID : String
deriving DecidableEq, Repr

/-- The node-identifier conversion at the end of
`WSMessageDataExecuted.UnmarshalJSON`: `strconv.Atoi(temp.Node)`, failing
the decode on a non-integer identifier.  The output-map reshaping earlier
in that function never produces an error and is not modelled. -/
def unmarshalExecutedNode (nodeStr : String) (pid : String) : Except String WSExecutedRec :=
  match goParseInt64 nodeStr with
  | none => .error "invalid syntax"
  | some i => .ok { node := i, promptID := pid }

/-- The decoded `execution_error` frame keeps its node identifier as a
string: `WSMessageExecutionError.Node` is declared `string` with tag
`node_id` and no conversion happens at decode time. -/
def unmarshalExecutionErrorNode (nodeId : String) : String := nodeId

/-! ## Node catalogue (graphapi/nodeobjects.go)

`PopulateInputProperties` materialises property descriptors per node kind.
The descriptor below carries the fields the claims concern: input name,
`TypeString()`, serialisability, optionality, declaration index and — for
COMBO descriptors — the value list. -/

/-- The observable descriptor of a catalogue property. -/
structure CatProp where
  name : String
  typeString : String
  serializable : Bool
  optional : Bool
  index : Int
  comboValues : List String
deriving DecidableEq, Repr

/-- Whether a nested input descriptor is a CASCADE
(`isCascadingProperty`): some element is itself a sequence. -/
def isCascadingInput (input : List JVal) : Bool :=
  input.any (fun v => match v with | .jarr _ => true | _ => false)

/-- The value list of `newComboProperty`: string entries are kept, boolean
entries make it a bool combo rendered as `"true"`/`"false"`, anything else
is skipped with a log message. -/
def comboValuesOf : List JVal → List String
  | [] => []
  | .jstr s :: rest => s :: comboValuesOf rest
  | .jbool b :: rest => (if b then "true" else "false") :: comboValuesOf rest
  | _ :: rest => comboValuesOf rest

/-- Go `NewPropertyFromInput`, projected onto the descriptor fields.
A sequence input whose head is itself a sequence yields a COMBO (or a
CASCADE when nested further); a head string selects the kind, falling back
to UNKNOWN (whose `TypeString` is the raw tag) for unrecognised tags or a
missing data element; the bare string `"*"` yields UNKNOWN.  Every
constructor sets `serializable` to true. -/
def newPropertyFromInput (inputName : String) (optional : Bool) (input : JVal) (index : Int) :
    Option CatProp :=
  match input with
  | .jarr [] => none
  | .jarr (first :: rest) =>
    match first with
    | .jarr ptype =>
      if isCascadingInput ptype then
        some { name := inputName, typeString := "CASCADE", serializable := true,
               optional := optional, index := index, comboValues := [] }
      else
        some { name := inputName, typeString := "COMBO", serializable := true,
               optional := optional, index := index, comboValues := comboValuesOf ptype }
    | .jstr stype =>
      if rest.isEmpty then
        some { name := inputName, typeString := stype, serializable := true,
               optional := optional, index := index, comboValues := [] }
      else if stype = "STRING" ∨ stype = "INT" ∨ stype = "FLOAT" ∨ stype = "BOOLEAN" then
        some { name := inputName, typeString := stype, serializable := true,
               optional := optional, index := index, comboValues := [] }
      else
        some { name := inputName, typeString := stype, serializable := true,
               optional := optional, index := index, comboValues := [] }
    | _ => none
  | .jstr s => if s = "*" then
      some { name := inputName, typeString := "*", serializable := true,
             optional := optional, index := index, comboValues := [] }
    else none
  | _ => none

/-- The parsed `control_after_generate_text` constant: a COMBO descriptor
with the four generation-control values. -/
def controlAfterGenerateInput : JVal :=
  .jarr [.jarr [.jstr "fixed", .jstr "increment", .jstr "decrement", .jstr "randomize"]]

/-- One step of the required-inputs loop of `PopulateInputProperties`:
after a successful property creation, the parenthesised condition
`((*nprop).Name() == "seed" || (*nprop).Name() == "noise_seed") &&
(*nprop).TypeString() == "INT"` appends a `control_after_generate` COMBO
and marks it non-serialisable with `SetSerializable(false)`. -/
def populateRequiredStep (acc : List CatProp × Int) (kv : String × JVal) : List CatProp × Int :=
  let (props, index) := acc
  match newPropertyFromInput kv.1 false kv.2 index with
  | none => (props, index + 1)
  | some p =>
    if (p.name = "seed" ∨ p.name = "noise_seed") ∧ p.typeString = "INT" then
      match newPropertyFromInput "control_after_generate" p.optional controlAfterGenerateInput (index + 1) with
      | some cp => (props ++ [p, { cp with serializable := false }], index + 2)
      | none => (props ++ [p], index + 1)
    else (props ++ [p], index + 1)

/-- One step of the optional-inputs loop of `PopulateInputProperties`.
The Go condition here reads `(*nprop).Name() == "seed" ||
(*nprop).Name() == "noise_seed" && (*nprop).TypeString() == "INT"` — with
Go operator precedence the type check binds only to the second disjunct —
and the appended property is not marked non-serialisable. -/
def populateOptionalStep (acc : List CatProp × Int) (kv : String × JVal) : List CatProp × Int :=
  let (props, index) := acc
  match newPropertyFromInput kv.1 true kv.2 index with
  | none => (props, index + 1)
  | some p =>
    if p.name = "seed" ∨ (p.name = "noise_seed" ∧ p.typeString = "INT") then
      match newPropertyFromInput "control_after_generate" p.optional controlAfterGenerateInput (index + 1) with
      | some cp => (props ++ [p, cp], index + 2)
      | none => (props ++ [p], index + 1)
    else (props ++ [p], index + 1)

/-- Go `PopulateInputProperties` for one node kind: the ordered required
inputs, then the ordered optional inputs, threading the declaration
index. -/
def populateInputProperties (required optional : List (String × JVal)) : List CatProp :=
  let afterReq := required.foldl populateRequiredStep ([], 0)
  (optional.foldl populateOptionalStep afterReq).1

/-! ## Event-channel reconnection (src/graphapi/group.go, second document)

The reconnecting `WebSocketConnection` that the `ComfyClient` constructors
configure (`ConnectWithManager`, `getReconnectDelay`, `Ping`) lives in the
second document of src/graphapi/group.go.  Its connection-manager
goroutine keeps a local `retries` counter (fresh per invocation, capping
the attempts at `MaxRetry`) while the delay computation uses the struct
field `w.RetryCount`, which is incremented on every delayed retry and
never reset — neither on success nor between invocations.  After a read
error `handleMessages` returns and the manager goroutine exits, so a
reconnection after channel loss is a fresh `ConnectWithManager`
invocation on the same struct, carrying the accumulated `RetryCount`.
The model below maps the goroutine's attempt loop over the list of
successive `w.connect()` outcomes, collecting the waits; the
`ConnectionDone` shutdown path simply ends the loop and is not modelled
further. -/

/-- Connection configuration assembled by the `ComfyClient` constructors.
Delays are `time.Duration` values in nanoseconds. -/
structure WSConfig where
  maxRetry : Nat
  baseDelay : Int
  maxDelay : Int
deriving DecidableEq, Repr

/-- Go `NewComfyClient` (client/comfyclient.go): `MaxRetry: 5`,
`BaseDelay: 1 * time.Second`, `MaxDelay: 10 * time.Second`. -/
def newComfyClientConfig : WSConfig :=
  { maxRetry := 5, baseDelay := 1000000000, maxDelay := 10000000000 }

/-- Go `NewComfyClientWithTimeout` (client/comfyclient.go): the retry cap
is the caller-supplied `retry` argument; the delays are the same
defaults. -/
def newComfyClientWithTimeoutConfig (retry : Nat) : WSConfig :=
  { maxRetry := retry, baseDelay := 1000000000, maxDelay := 10000000000 }

/-- Two's-complement wrap of Go `int64` arithmetic. -/
def wrap64 (z : Int) : Int :=
  (z + 2 ^ 63) % 2 ^ 64 - 2 ^ 63

/-- Model of `time.Duration(math.Pow(2, float64(n)))` in
`getReconnectDelay`: `math.Pow(2, n)` is exactly `2 ^ n` while
representable and `+Inf` beyond, and the `time.Duration` (`int64`)
conversion of either gives the same implementation-dependent overflow
result that `int64ofF64` captures. -/
def goPow2Duration (n : Nat) : Int :=
  int64ofF64 ((2 : Int) ^ n)

/-- Go `WebSocketConnection.getReconnectDelay`
(src/graphapi/group.go:173-181): `delay := w.BaseDelay *
time.Duration(math.Pow(2, float64(w.RetryCount)))`, capped at
`w.MaxDelay`, and `w.RetryCount++` — the increment survives the call, so
the second component returns the updated counter. -/
def getReconnectDelay (cfg : WSConfig) (retryCount : Nat) : Int × Nat :=
  let delay := wrap64 (cfg.baseDelay * goPow2Duration retryCount)
  (if cfg.maxDelay < delay then cfg.maxDelay else delay, retryCount + 1)

/-- The persistent connection state of a `WebSocketConnection`:
`RetryCount` (never reset) and `IsConnected`. -/
structure WSConnState where
  retryCount : Nat
  isConnected : Bool
deriving DecidableEq, Repr

/-- The attempt loop of the `ConnectWithManager` goroutine
(src/graphapi/group.go:79-112): each element of `outcomes` is the result
of one `w.connect()` call.  A failure sets `IsConnected` false and
increments the local `retries`; once `retries` exceeds `MaxRetry` the
manager gives up with the channel not connected, otherwise it waits
`getReconnectDelay()` (incrementing the persistent `RetryCount`) and
retries.  A success sets `IsConnected` true and leaves `RetryCount`
untouched.  The returned list collects the waits in order. -/
def connectionAttemptLoop (cfg : WSConfig) :
    List Bool → Nat → WSConnState → WSConnState × List Int
  | [], _, st => (st, [])
  | outcome :: rest, retries, st =>
    if outcome then ({ st with isConnected := true }, [])
    else
      let st1 : WSConnState := { st with isConnected := false }
      let retries1 := retries + 1
      if cfg.maxRetry < retries1 then (st1, [])
      else
        let d := getReconnectDelay cfg st1.retryCount
        let next := connectionAttemptLoop cfg rest retries1 { st1 with retryCount := d.2 }
        (next.1, d.1 :: next.2)

/-- Go `WebSocketConnection.ConnectWithManager`: one manager invocation,
starting its local `retries` at 0, over the persistent connection
state. -/
def connectWithManager (cfg : WSConfig) (outcomes : List Bool) (st : WSConnState) :
    WSConnState × List Int :=
  connectionAttemptLoop cfg outcomes 0 st

/-! ## Workflow model and subgraph expander (graphapi/subgraph.go)

The expander operates on the loaded workflow model.  The `Graph` and
`GraphNode` declarations the expander compiles against are not in the
provided sources (the `graphapi` snapshots present predate subgraphs), so
the fields below follow the spec: a node carries its integer identity,
kind tag, execution order, visual mode, input slots, widget payload,
bound properties, and the load-time `IsSubgraph` mark set for every node
whose kind tag equals a known subgraph UUID.  Property objects are
abstracted to the two observations the expander makes of them —
`Serializable()` and `GetValue()` — plus the alias used by
`GetPropertyWithName`. -/

/-- The expander's view of one bound property of a node. -/
structure PropEntry where
  serializable : Bool
  value : GoValue
  aliasOf : String
deriving DecidableEq, Repr

/-- An input slot of a node: its name and the identifier of the link
feeding it (`0` when unconnected). -/
structure GSlot where
  name : String
  link : Int
deriving DecidableEq, Repr

/-- A workflow node, restricted to the fields the expander reads. -/
structure GraphNode where
  id : Int
  type : String
  order : Int
  mode : Int
  inputs : List GSlot
  widgets : WidgetPayload
  props : List (String × PropEntry)
  isSubgraph : Bool
deriving DecidableEq, Repr

/-- Go `GraphNode.IsVirtual` (graphapi/node.go): `PrimitiveNode`,
`Reroute` and `Note` are frontend-only. -/
def GraphNode.IsVirtual (n : GraphNode) : Bool :=
  n.type = "PrimitiveNode" ∨ n.type = "Reroute" ∨ n.type = "Note"

/-- An input or output port of a subgraph definition. -/
structure SubgraphPort where
  name : String
  type : String
deriving DecidableEq, Repr

/-- A subgraph definition, restricted to the fields the expander reads:
the boundary pseudo-node identities, the ports, and the internal nodes
and links. -/
structure SubgraphDef where
  id : String
  inputNodeId : Int
  outputNodeId : Int
  inputs : List SubgraphPort
  outputs : List SubgraphPort
  nodes : List GraphNode
  links : List Link
deriving DecidableEq, Repr

/-- The loaded workflow graph, restricted to the fields the expander
reads. -/
structure Graph where
  nodes : List GraphNode
  links : List Link
  lastNodeID : Int
  subgraphs : List SubgraphDef
deriving DecidableEq, Repr

/-- Go `SubgraphDefinition.GetNodeById`: lookup in `NodesByID`, which is
filled front to back so a duplicate identity keeps the last entry. -/
def SubgraphDef.getNodeById (sg : SubgraphDef) (i : Int) : Option GraphNode :=
  sg.nodes.reverse.find? (fun n => n.id == i)

/-- Go `SubgraphDefinition.GetLinkById` via `LinksByID`. -/
def SubgraphDef.getLinkById (sg : SubgraphDef) (i : Int) : Option Link :=
  sg.links.reverse.find? (fun l => l.id == i)

/-- Go `SubgraphDefinition.GetLinkToOutput`: the first internal link whose
target is the output pseudo-node at the given slot. -/
def SubgraphDef.getLinkToOutput (sg : SubgraphDef) (outputSlot : Int) : Option Link :=
  sg.links.find? (fun l => l.targetID == sg.outputNodeId && l.targetSlot == outputSlot)

/-- Go `Graph.GetNodeById` via `NodesByID`. -/
def Graph.getNodeById (g : Graph) (i : Int) : Option GraphNode :=
  g.nodes.reverse.find? (fun n => n.id == i)

/-- Go `Graph.GetLinkById` via `LinksByID`. -/
def Graph.getLinkById (g : Graph) (i : Int) : Option Link :=
  g.links.reverse.find? (fun l => l.id == i)

/-- The graph's `SubgraphsByID` index keyed by definition UUID, which is
also how `GetSubgraphForNode` resolves a node's kind tag. -/
def Graph.subgraphByType (g : Graph) (ty : String) : Option SubgraphDef :=
  g.subgraphs.reverse.find? (fun sg => sg.id == ty)

/-- Stable insertion of a node into a list sorted ascending by `order`. -/
def insertByOrder (n : GraphNode) : List GraphNode → List GraphNode
  | [] => [n]
  | m :: r => if m.order < n.order then m :: insertByOrder n r else n :: m :: r

/-- `NodesInExecutionOrder`: the nodes sorted ascending on their `order`
field.  (Go uses `sort.Sort`, which is unstable; no claim involves nodes
with equal `order`, so a stable sort models it.) -/
def Graph.nodesInExecutionOrder (g : Graph) : List GraphNode :=
  g.nodes.foldr insertByOrder []

/-- A dynamically typed value flowing through the expander
(`interface{}` in Go).  The Go type switch in `ToPromptNodes`
distinguishes the typed slice `[]int` from `[]interface{}`, so the two get
distinct constructors. -/
inductive IVal where
  | vGo (v : GoValue)
  | vIntPair (a b : Int)
  | vList (l : List IVal)
  | vStrV (s : String)
  | vIntV (n : Int)

/-- Go `ExpandedNode` (graphapi/subgraph.go): the compound string
identity, the underlying node, and — for subgraph internals — the
identities standing in for the Go `SubgraphDef`/`InstanceNode` pointers,
plus the input mapping. -/
structure ExpandedNode where
  originalID : Int
  expandedID : String
  node : GraphNode
  subgraphDefId : Option String
  instanceId : Option Int
  inputMapping : List (Int × IVal)

/-- Go `SubgraphExpander`.  `marked` records the `IsSubgraph = true`
mutations that `expandSubgraphNode` performs on internal nodes, keyed by
(definition id, node id) since Go shares the node pointer across
instances of the same definition. -/
structure Expander where
  graph : Graph
  expandedNodes : List (String × ExpandedNode)
  nextID : Int
  outputResolution : List (String × List IVal)
  instanceIDMaps : List (Int × List (Int × String))
  marked : List (String × Int)

/-- Go `NewSubgraphExpander`. -/
def newSubgraphExpander (g : Graph) : Expander :=
  { graph := g, expandedNodes := [], nextID := g.lastNodeID + 1,
    outputResolution := [], instanceIDMaps := [], marked := [] }

/-- The compound identifier `fmt.Sprintf("%d:%d", a, b)`. -/
def compoundKey (a b : Int) : String :=
  toString a ++ ":" ++ toString b

/-- The `IsSubgraph` flag of a node as the expander observes it: the
load-time mark, or the mutation recorded while expanding the enclosing
definition. -/
def nodeIsSubgraphFlag (e : Expander) (scope : Option SubgraphDef) (n : GraphNode) : Bool :=
  n.isSubgraph ||
    (match scope with
     | some sg => e.marked.contains (sg.id, n.id)
     | none => false)

/-- Indexed traversal (`for i, x := range xs`) with the index as a Go
`int`. -/
def enumI {α : Type} (l : List α) : List (Int × α) :=
  l.enum.map (fun p => ((p.1 : Int), p.2))

/-- Go `GraphNode.GetPropertyWithName` as the expander sees it: primary
name first, then alias. -/
def getPropertyWithNameE (n : GraphNode) (name : String) : Option PropEntry :=
  match lookupS n.props name with
  | some p => some p
  | none => (n.props.find? (fun kp => kp.2.aliasOf == name)).map (·.2)

/-- Go `SubgraphExpander.getWidgetValue`: prefer a bound property's value;
otherwise read the raw widget payload by index (array form) or name (map
form), else `nil`. -/
def getWidgetValueE (n : GraphNode) (name : String) (index : Int) : GoValue :=
  if 0 < n.props.length then
    match getPropertyWithNameE n name with
    | some p => p.value
    | none =>
      match n.widgets with
      | .arrP arr => if index < (arr.length : Int) then (listGetInt arr index).getD .vNil else .vNil
      | .mapP m => (lookupS m name).getD .vNil
      | .nilP => .vNil
  else
    match n.widgets with
    | .arrP arr => if index < (arr.length : Int) then (listGetInt arr index).getD .vNil else .vNil
    | .mapP m => (lookupS m name).getD .vNil
    | .nilP => .vNil

/-- The external-link search shared by `buildInputMapping` and
`buildNestedInputMapping`: the first input slot of the instance whose link
resolves and targets slot `i`. -/
def findExternalLink (slots : List GSlot) (getLk : Int → Option Link) (i : Int) : Option Link :=
  slots.findSome? (fun s =>
    if s.link ≠ (0 : Int) then
      match getLk s.link with
      | some l => if l.targetSlot == i then some l else none
      | none => none
    else none)

/-- Go `SubgraphExpander.resolveExternalLink`: when the origin is a
subgraph instance with a registered output resolution, use it; otherwise
the `[]int{originID, originSlot}` pair. -/
def resolveExternalLink (e : Expander) (l : Link) (parentSg : Option SubgraphDef) : IVal :=
  let originNode :=
    match parentSg with
    | some ps => ps.getNodeById l.originID
    | none => e.graph.getNodeById l.originID
  match originNode with
  | some n =>
    if nodeIsSubgraphFlag e parentSg n then
      match lookupS e.outputResolution (compoundKey l.originID l.originSlot) with
      | some r => IVal.vList r
      | none => IVal.vIntPair l.originID l.originSlot
    else IVal.vIntPair l.originID l.originSlot
  | none => IVal.vIntPair l.originID l.originSlot

/-- Go `SubgraphExpander.buildInputMapping`: for each input port of the
definition, either cascade from the parent's mapping (when the external
link originates at the parent's input pseudo-node), resolve the external
link, or fall back to the instance node's widget value at the port
position. -/
def buildInputMapping (e : Expander) (inst : GraphNode) (sg : SubgraphDef)
    (parentSg : Option SubgraphDef) (parentMapping : List (Int × IVal)) :
    List (Int × IVal) :=
  (enumI sg.inputs).foldl (fun mapping ip =>
    let i := ip.1
    let getLk :=
      match parentSg with
      | some ps => ps.getLinkById
      | none => e.graph.getLinkById
    match findExternalLink inst.inputs getLk i with
    | some ext =>
      match parentSg with
      | some ps =>
        if ext.originID == ps.inputNodeId then
          match lookupI parentMapping ext.originSlot with
          | some v => upsertI i v mapping
          | none => mapping
        else upsertI i (resolveExternalLink e ext parentSg) mapping
      | none => upsertI i (resolveExternalLink e ext parentSg) mapping
    | none =>
      if inst.widgets ≠ WidgetPayload.nilP then
        upsertI i (IVal.vGo (getWidgetValueE inst ip.2.name i)) mapping
      else mapping) []

/-- Go `SubgraphExpander.buildNestedInputMapping`: the input mapping of a
nested instance, cascading from the parent's mapping or remapping sibling
origins through the parent's compound-id map. -/
def buildNestedInputMapping (nestedNode : GraphNode) (parentSg : SubgraphDef)
    (parentIdMap : List (Int × String)) (parentMapping : List (Int × IVal))
    (nestedSg : SubgraphDef) : List (Int × IVal) :=
  (enumI nestedSg.inputs).foldl (fun mapping ip =>
    let i := ip.1
    match findExternalLink nestedNode.inputs parentSg.getLinkById i with
    | none => mapping
    | some l =>
      if l.originID == parentSg.inputNodeId then
        match lookupI parentMapping l.originSlot with
        | some v => upsertI i v mapping
        | none => mapping
      else
        upsertI i (IVal.vList [IVal.vStrV ((lookupI parentIdMap l.originID).getD ""),
                               IVal.vIntV l.originSlot]) mapping) []

/-- The per-internal-node input loop of `expandSubgraphNode`: for each
linked slot, copy the instance's input mapping when the origin is the
input pseudo-node; resolve through `OutputResolution` when the origin is a
(marked) nested instance — note the Go code wraps the already-paired
resolution in another `[]interface{}` there; otherwise remap through the
compound-id map. -/
def buildInternalInputMapping (e : Expander) (sg : SubgraphDef)
    (idMap : List (Int × String)) (im : List (Int × IVal)) (n : GraphNode) :
    List (Int × IVal) :=
  (enumI n.inputs).foldl (fun acc ip =>
    let i := ip.1
    if ip.2.link == (0 : Int) then acc
    else
      match sg.getLinkById ip.2.link with
      | none => acc
      | some l =>
        if l.originID == sg.inputNodeId then
          match lookupI im l.originSlot with
          | some v => upsertI i v acc
          | none => acc
        else
          match sg.getNodeById l.originID with
          | some oN =>
            if nodeIsSubgraphFlag e (some sg) oN then
              match lookupS e.outputResolution (compoundKey oN.id l.originSlot) with
              | some r => upsertI i (IVal.vList [IVal.vList r, IVal.vIntV l.originSlot]) acc
              | none => acc
            else
              upsertI i (IVal.vList [IVal.vStrV ((lookupI idMap l.originID).getD ""),
                                     IVal.vIntV l.originSlot]) acc
          | none =>
            upsertI i (IVal.vList [IVal.vStrV ((lookupI idMap l.originID).getD ""),
                                   IVal.vIntV l.originSlot]) acc) []

/-- The output-registration loop at the end of `expandSubgraphNode`: for
each output port, record under `"instanceID:slot"` either the internal
origin's compound reference or, when the origin is a nested instance, its
already-registered resolution.  The map is read and written live during
the loop, so the fold threads it. -/
def registerOutputsRes (e : Expander) (inst : GraphNode) (sg : SubgraphDef)
    (idMap : List (Int × String)) : List (String × List IVal) :=
  (enumI sg.outputs).foldl (fun res op =>
    match sg.getLinkToOutput op.1 with
    | none => res
    | some l =>
      let key := compoundKey inst.id op.1
      let nested :=
        match sg.getNodeById l.originID with
        | some oN => nodeIsSubgraphFlag e (some sg) oN
        | none => false
      if nested then
        match lookupS res (compoundKey l.originID l.originSlot) with
        | some r => upsertS key r res
        | none => res
      else
        upsertS key [IVal.vStrV ((lookupI idMap l.originID).getD ""),
                     IVal.vIntV l.originSlot] res) e.outputResolution

/-- `registerOutputsRes` installed into the expander; it touches only
`OutputResolution`. -/
def registerOutputs (e : Expander) (inst : GraphNode) (sg : SubgraphDef)
    (idMap : List (Int × String)) : Expander :=
  { e with outputResolution := registerOutputsRes e inst sg idMap }

/-- The internal-node loop of `expandSubgraphNode`, parameterised by the
recursive expansion call used for nested instances: skip virtual and
muted nodes; mark and recurse into nested instances; register every
other node under its compound identifier with its input mapping. -/
def processNodesWith
    (recExpand : Expander → GraphNode → SubgraphDef → Option SubgraphDef →
                 List (Int × IVal) → Option Expander) :
    Expander → GraphNode → SubgraphDef → List (Int × String) → List (Int × IVal) →
    List GraphNode → Option Expander
  | e, _, _, _, _, [] => some e
  | e, inst, sg, idMap, im, n :: rest =>
    if n.IsVirtual || n.mode == 2 then processNodesWith recExpand e inst sg idMap im rest
    else
      match e.graph.subgraphByType n.type with
      | some nestedSg =>
        let e1 := { e with marked := (sg.id, n.id) :: e.marked }
        let nim := buildNestedInputMapping n sg idMap im nestedSg
        match recExpand e1 n nestedSg (some sg) nim with
        | none => none
        | some e2 => processNodesWith recExpand e2 inst sg idMap im rest
      | none =>
        let expandedID := (lookupI idMap n.id).getD ""
        let ex : ExpandedNode :=
          { originalID := n.id, expandedID := expandedID, node := n,
            subgraphDefId := some sg.id, instanceId := some inst.id,
            inputMapping := buildInternalInputMapping e sg idMap im n }
        processNodesWith recExpand
          { e with expandedNodes := upsertS expandedID ex e.expandedNodes }
          inst sg idMap im rest

/-- Go `SubgraphExpander.expandSubgraphNode`: build the compound-id map
`internalID ↦ "instanceID:internalID"`, record it, build the instance's
input mapping, process every internal node, then register the output
resolutions.  Recursion through nested instances is bounded by `fuel`
(Go recurses unboundedly and would not terminate on cyclic definitions). -/
def expandSubgraphNode : Nat →
    Expander → GraphNode → SubgraphDef → Option SubgraphDef → List (Int × IVal) →
    Option Expander
  | 0 => fun _ _ _ _ _ => none
  | fuel + 1 => fun e inst sg parentSg parentMapping =>
    let idMap := sg.nodes.map (fun n => (n.id, compoundKey inst.id n.id))
    let e1 := { e with instanceIDMaps := upsertI inst.id idMap e.instanceIDMaps }
    let im := buildInputMapping e1 inst sg parentSg parentMapping
    match processNodesWith (expandSubgraphNode fuel) e1 inst sg idMap im sg.nodes with
    | none => none
    | some e2 => some (registerOutputs e2 inst sg idMap)

/-- The node loop of Go `SubgraphExpander.ExpandAll`: skip virtual and
muted nodes, recurse into subgraph instances (a missing definition is the
Go error return), and register every other node under its stringified
identifier. -/
def expandAllNodes (fuel : Nat) : Expander → List GraphNode → Option Expander
  | e, [] => some e
  | e, n :: rest =>
    if n.IsVirtual || n.mode == 2 then expandAllNodes fuel e rest
    else if n.isSubgraph then
      match e.graph.subgraphByType n.type with
      | none => none
      | some sg =>
        match expandSubgraphNode fuel e n sg none [] with
        | none => none
        | some e1 => expandAllNodes fuel e1 rest
    else
      let nodeIDStr := toString n.id
      let ex : ExpandedNode :=
        { originalID := n.id, expandedID := nodeIDStr, node := n,
          subgraphDefId := none, instanceId := none, inputMapping := [] }
      expandAllNodes fuel { e with expandedNodes := upsertS nodeIDStr ex e.expandedNodes } rest

/-- Go `SubgraphExpander.ExpandAll` over a fresh expander, with `fuel`
bounding the subgraph nesting depth. -/
def expandAll (g : Graph) (fuel : Nat) : Option Expander :=
  expandAllNodes fuel (newSubgraphExpander g) g.nodesInExecutionOrder

/-- An entry of the prompt document: the server-side class and the named
inputs. -/
structure PromptNode where
  classType : String
  inputs : List (String × IVal)

/-- Go `SubgraphExpander.findExpandedID`: search the expanded nodes for
the entry matching this definition, instance and internal identity. -/
def findExpandedID (e : Expander) (defId : String) (instId : Option Int)
    (internalId : Int) : String :=
  match e.expandedNodes.find? (fun kp =>
      kp.2.subgraphDefId == some defId && kp.2.instanceId == instId &&
      kp.2.originalID == internalId) with
  | some kp => kp.1
  | none => ""

/-- The per-node body of Go `SubgraphExpander.ToPromptNodes`: serialisable
property values first; then, for subgraph internals, the input mapping
(with `[]int` pairs rendered as `[stringID, slot]` and everything else
passed through) with a fallback through the definition's links; for
top-level nodes, each linked slot resolved either through a subgraph
instance's registered output or directly. -/
def toPromptNode (e : Expander) (ex : ExpandedNode) : PromptNode :=
  let node := ex.node
  let baseInputs : List (String × IVal) :=
    if 0 < node.props.length then
      node.props.foldl (fun acc kp =>
        if kp.2.serializable then upsertS kp.1 (IVal.vGo kp.2.value) acc else acc) []
    else []
  let inputs :=
    match ex.subgraphDefId with
    | some defId =>
      (enumI node.inputs).foldl (fun acc ip =>
        match lookupI ex.inputMapping ip.1 with
        | some val =>
          match val with
          | IVal.vIntPair a b =>
            upsertS ip.2.name (IVal.vList [IVal.vStrV (toString a), IVal.vIntV b]) acc
          | v => upsertS ip.2.name v acc
        | none =>
          if ip.2.link ≠ (0 : Int) then
            match e.graph.subgraphByType defId with
            | none => acc
            | some sgd =>
              match sgd.getLinkById ip.2.link with
              | some l =>
                if l.originID ≠ sgd.inputNodeId then
                  let originExpandedID := findExpandedID e defId ex.instanceId l.originID
                  if originExpandedID ≠ "" then
                    upsertS ip.2.name
                      (IVal.vList [IVal.vStrV originExpandedID, IVal.vIntV l.originSlot]) acc
                  else acc
                else acc
              | none => acc
          else acc) baseInputs
    | none =>
      node.inputs.foldl (fun acc slot =>
        if slot.link == (0 : Int) then acc
        else
          match e.graph.getLinkById slot.link with
          | none => acc
          | some l =>
            let originIsSub :=
              match e.graph.getNodeById l.originID with
              | some oN => oN.isSubgraph
              | none => false
            if originIsSub then
              match lookupS e.outputResolution (compoundKey l.originID l.originSlot) with
              | some r =>
                match r with
                | [IVal.vStrV s0, IVal.vIntV sl] =>
                  upsertS slot.name (IVal.vList [IVal.vStrV s0, IVal.vIntV sl]) acc
                | _ => acc
              | none => acc
            else
              upsertS slot.name
                (IVal.vList [IVal.vStrV (toString l.originID), IVal.vIntV l.originSlot]) acc)
        baseInputs
  { classType := node.type, inputs := inputs }

/-- Go `SubgraphExpander.ToPromptNodes`: one prompt entry per expanded
node, keyed by the expanded identifier. -/
def toPromptNodes (e : Expander) : List (String × PromptNode) :=
  e.expandedNodes.foldl (fun res kp => upsertS kp.1 (toPromptNode e kp.2) res) []

/-! ## Concrete workflows for the expansion claims -/

/-- The internal `VAEDecode` node (identity 8) of the C1 scenario
definition. -/
def vaeDecodeNode8 : GraphNode :=
  { id := 8, type := "VAEDecode", order := 0, mode := 0, inputs := [],
    widgets := .nilP, props := [], isSubgraph := false }

/-- The C1 scenario subgraph definition: one output port fed on slot 0 by
the internal `VAEDecode` node 8. -/
def c1Def : SubgraphDef :=
  { id := "f2fdebf6-dfaf-43b6-9eb2-7f70613cfdc1",
    inputNodeId := -10, outputNodeId := -20,
    inputs := [], outputs := [{ name := "IMAGE", type := "IMAGE" }],
    nodes := [vaeDecodeNode8],
    links := [Link.fresh 1 8 0 (-20) 0 "IMAGE"] }

/-- The C1 scenario subgraph instance, identity 57, marked at load time
because its kind tag is the definition's UUID. -/
def instanceNode57 : GraphNode :=
  { id := 57, type := "f2fdebf6-dfaf-43b6-9eb2-7f70613cfdc1", order := 0,
    mode := 0, inputs := [], widgets := .nilP, props := [], isSubgraph := true }

/-- The C1 scenario top-level `SaveImage`, identity 9, with its `images`
input linked (link 5) to output slot 0 of instance 57. -/
def saveImageNode9 : GraphNode :=
  { id := 9, type := "SaveImage", order := 1, mode := 0,
    inputs := [{ name := "images", link := 5 }],
    widgets := .nilP, props := [], isSubgraph := false }

/-- The C1 scenario workflow. -/
def c1Graph : Graph :=
  { nodes := [saveImageNode9, instanceNode57],
    links := [Link.fresh 5 57 0 9 0 "IMAGE"],
    lastNodeID := 58, subgraphs := [c1Def] }

/-- The C1 scenario prompt: `ExpandAll` followed by `ToPromptNodes`. -/
def c1Prompt : Option (List (String × PromptNode)) :=
  (expandAll c1Graph 3).map toPromptNodes

/-- The innermost node (identity 3) of the C2 nesting scenario. -/
def c2NodeM : GraphNode :=
  { id := 3, type := "KSampler", order := 0, mode := 0, inputs := [],
    widgets := .nilP, props := [], isSubgraph := false }

/-- The inner definition of the C2 nesting scenario, containing node 3. -/
def c2InnerDef : SubgraphDef :=
  { id := "11111111-1111-1111-1111-111111111111",
    inputNodeId := -10, outputNodeId := -20,
    inputs := [], outputs := [], nodes := [c2NodeM], links := [] }

/-- The nested instance node `J` (identity 7) inside the outer
definition; its kind tag is the inner definition's UUID. -/
def c2NodeJ : GraphNode :=
  { id := 7, type := "11111111-1111-1111-1111-111111111111", order := 0,
    mode := 0, inputs := [], widgets := .nilP, props := [], isSubgraph := false }

/-- The outer definition of the C2 nesting scenario, containing the
nested instance 7. -/
def c2OuterDef : SubgraphDef :=
  { id := "22222222-2222-2222-2222-222222222222",
    inputNodeId := -11, outputNodeId := -21,
    inputs := [], outputs := [], nodes := [c2NodeJ], links := [] }

/-- The top-level instance node `I` (identity 5) of the outer
definition. -/
def c2NodeI : GraphNode :=
  { id := 5, type := "22222222-2222-2222-2222-222222222222", order := 0,
    mode := 0, inputs := [], widgets := .nilP, props := [], isSubgraph := true }

/-- The C2 nesting-scenario workflow: instance 5 of a definition whose
internal node 7 is itself an instance of a definition with internal
node 3. -/
def c2Graph : Graph :=
  { nodes := [c2NodeI], links := [], lastNodeID := 7,
    subgraphs := [c2InnerDef, c2OuterDef] }

/-! ## Concrete inputs for the remaining claims -/

/-- The error-envelope body of spec scenario 5, exactly as quoted there:
no `node_errors` member. -/
def c4EnvelopeBody : JVal :=
  .jobj [("error", .jobj [("type", .jstr "prompt_no_outputs"),
                          ("message", .jstr "Prompt has no outputs")])]

/-- The error-envelope body with the `node_errors: []` member that the
server also sends and that the code comment in `QueuePrompt` quotes. -/
def c4EnvelopeBodyFull : JVal :=
  .jobj [("error", .jobj [("type", .jstr "prompt_no_outputs"),
                          ("message", .jstr "Prompt has no outputs")]),
         ("node_errors", .jarr [])]

/-- A catalogue input declaring `seed` as an INT. -/
def seedIntInput : JVal := .jarr [.jstr "INT", .jobj [("default", .jnum 0)]]

/-- A catalogue input declaring `seed` as a FLOAT. -/
def seedFloatInput : JVal := .jarr [.jstr "FLOAT", .jobj [("default", .jnum 0)]]

/-- A COMBO property named `image` holding one filename, bound to widget
slot 0 of node handle 0. -/
def c7Combo : Property :=
  .mk { name := "image", optional := false, serializable := true, override := none,
        index := 0, directCell := none, targetNode := some 0, targetIndex := 0,
        aliasName := "" }
      (.comboP ["a.png"] false) []

/-- The store for the IMAGEUPLOAD scenario: the owning node's widget array
holds the combo's current filename. -/
def c7Store : Store := { nodes := [.arrP [.vStr "a.png"]], cells := [] }

/-- The IMAGEUPLOAD property bound over `c7Combo`. -/
def c7Upload : Property := newImageUploadProperty "choose file to upload" c7Combo 1

/-- The combo and store after `SetFilename("b.png")` (an upload). -/
def c7After : Property × Store := setFilename c7Combo "b.png" c7Store

/-- An INT property with declared range `[0, 2^62]`, bound to widget
slot 0 of node handle 0. -/
def c8Prop : Property :=
  .mk { name := "width", optional := false, serializable := true, override := none,
        index := 0, directCell := none, targetNode := some 0, targetIndex := 0,
        aliasName := "" }
      (.intP 0 4611686018427387904 true) []

/-- The store for the INT clamp scenario. -/
def c8Store : Store := { nodes := [.arrP [.vInt 0]], cells := [] }

/-- A COMBO property over two sampler names, bound to widget slot 0 of
node handle 0. -/
def c10Combo : Property :=
  .mk { name := "sampler_name", optional := false, serializable := true, override := none,
        index := 0, directCell := none, targetNode := some 0, targetIndex := 0,
        aliasName := "" }
      (.comboP ["euler", "ddim"] false) []

/-- The store for the rejected-`SetValue` scenario. -/
def c10Store : Store := { nodes := [.arrP [.vStr "euler"]], cells := [] }

/-- An INT property with declared range `[lo, hi]` bound to widget slot
`idx` of node handle `nid`, as produced by property binding for a range
input. -/
def mkIntWidgetProp (nm : String) (lo hi : Int) (nid idx : Nat) : Property :=
  .mk { name := nm, optional := false, serializable := true, override := none,
        index := 0, directCell := none, targetNode := some nid, targetIndex := (idx : Int),
        aliasName := "" }
      (.intP lo hi true) []

/-- The expansion of the nested instance `J = 7` of the C2 scenario,
invoked the way `processNodes` invokes it from inside instance 5. -/
def c2InnerExpanded : Option Expander :=
  expandSubgraphNode 1 (newSubgraphExpander c2Graph) c2NodeJ c2InnerDef (some c2OuterDef) []

/-! # Theorems -/

/-- `f64roundNat` is exact below the 53-bit precision bound. -/
theorem f64roundNat_of_le (n : Nat) (h : n ≤ 2 ^ 53) : f64roundNat n = n := by
  unfold f64roundNat
  rw [if_pos h]

/-- `float64` represents every integer of magnitude at most `2 ^ 53`
exactly. -/
theorem f64round_of_abs_le (z : Int) (h1 : -(2 ^ 53) ≤ z) (h2 : z ≤ 2 ^ 53) :
    f64round z = z := by
  unfold f64round
  split
  · rw [f64roundNat_of_le _ (by omega)]
    omega
  · rw [f64roundNat_of_le _ (by omega)]
    omega

/-- The `int64` conversion is exact in range. -/
theorem int64ofF64_of_range (z : Int) (h1 : -(2 ^ 63) ≤ z) (h2 : z < 2 ^ 63) :
    int64ofF64 z = z := by
  unfold int64ofF64
  rw [if_neg (by omega)]

/-- Within the exactly representable range the Go clamp chain agrees with
the mathematical `max lo (min hi ·)`. -/
theorem intRangeClamp_of_f64_exact (lo hi v : Int)
    (hlo1 : -(2 ^ 53) ≤ lo) (hlo2 : lo ≤ 2 ^ 53)
    (hhi1 : -(2 ^ 53) ≤ hi) (hhi2 : hi ≤ 2 ^ 53)
    (hv1 : -(2 ^ 53) ≤ v) (hv2 : v ≤ 2 ^ 53) :
    intRangeClamp lo hi v = max lo (min hi v) := by
  show int64ofF64 (max (f64round lo)
      (f64round (int64ofF64 (min (f64round hi) (f64round v))))) = max lo (min hi v)
  rw [f64round_of_abs_le hi hhi1 hhi2, f64round_of_abs_le v hv1 hv2,
    int64ofF64_of_range (min hi v) (by omega) (by omega),
    f64round_of_abs_le (min hi v) (by omega) (by omega),
    f64round_of_abs_le lo hlo1 hlo2,
    int64ofF64_of_range (max lo (min hi v)) (by omega) (by omega)]

/-- For an ordered range the spec's piecewise clamp is `max lo (min hi ·)`. -/
theorem specClamp_eq_max_min (lo hi v : Int) (h : lo ≤ hi) :
    specClamp lo hi v = max lo (min hi v) := by
  unfold specClamp
  split
  · omega
  · split <;> omega

/-- C8 amended: for an INT property with declared range `[lo, hi]` bound
to a widget array slot, and for every value `v`, with `lo`, `hi` and `v`
all of magnitude at most `2 ^ 53` (the range in which `float64` is exact)
and `lo ≤ hi`, `SetValue(v)` succeeds and an immediately following
`GetValue` returns exactly `clamp(v, lo, hi)`.  (Outside that range the
`float64` detour of the Go clamp breaks this; see the counterexample.) -/
theorem C8_int_clamp_amended (nm : String) (lo hi v : Int) (nid idx : Nat)
    (st : Store) (arr : List GoValue)
    (hlo1 : -(2 ^ 53) ≤ lo) (hlo2 : lo ≤ 2 ^ 53)
    (hhi1 : -(2 ^ 53) ≤ hi) (hhi2 : hi ≤ 2 ^ 53)
    (hv1 : -(2 ^ 53) ≤ v) (hv2 : v ≤ 2 ^ 53) (hord : lo ≤ hi)
    (harr : st.nodes.get? nid = some (.arrP arr)) (hidx : idx < arr.length) :
    (setValue (mkIntWidgetProp nm lo hi nid idx) (.vInt v) st).1 = .ok () ∧
    getValue (mkIntWidgetProp nm lo hi nid idx)
        (setValue (mkIntWidgetProp nm lo hi nid idx) (.vInt v) st).2
      = .vInt (specClamp lo hi v) := by
  have hlen : nid < st.nodes.length := by
    rcases Nat.lt_or_ge nid st.nodes.length with hl | hl
    · exact hl
    · rw [List.get?_eq_none.mpr hl] at harr
      exact absurd harr (by simp)
  have hsv : setValue (mkIntWidgetProp nm lo hi nid idx) (.vInt v) st
      = (.ok (), st.writeWidget nid nm (idx : Int) (.vInt (intRangeClamp lo hi v))) := rfl
  have hww : st.writeWidget nid nm (idx : Int) (.vInt (intRangeClamp lo hi v))
      = st.setNode nid (.arrP (listSetInt arr (idx : Int) (.vInt (intRangeClamp lo hi v)))) := by
    unfold Store.writeWidget
    rw [harr]
  refine ⟨by rw [hsv], ?_⟩
  rw [hsv, hww]
  have hnodes : ((st.setNode nid (WidgetPayload.arrP (listSetInt arr (idx : Int)
      (GoValue.vInt (intRangeClamp lo hi v))))).nodes).get? nid
      = some (WidgetPayload.arrP (listSetInt arr (idx : Int)
          (GoValue.vInt (intRangeClamp lo hi v)))) := by
    unfold Store.setNode
    rw [List.get?_eq_getElem?]
    exact List.getElem?_set_eq_of_lt _ hlen
  have hset : listSetInt arr (idx : Int) (GoValue.vInt (intRangeClamp lo hi v))
      = arr.set idx (GoValue.vInt (intRangeClamp lo hi v)) := by
    unfold listSetInt
    rw [if_pos (by omega), Int.toNat_natCast]
  have hget : listGetInt (arr.set idx (GoValue.vInt (intRangeClamp lo hi v))) (idx : Int)
      = some (GoValue.vInt (intRangeClamp lo hi v)) := by
    unfold listGetInt
    rw [if_pos (by omega), Int.toNat_natCast, List.get?_eq_getElem?]
    exact List.getElem?_set_eq_of_lt _ hidx
  simp only [getValue, mkIntWidgetProp, Property.core]
  rw [hnodes, hset]
  show (listGetInt (arr.set idx (GoValue.vInt (intRangeClamp lo hi v))) (idx : Int)).getD
      GoValue.vNil = GoValue.vInt (specClamp lo hi v)
  rw [hget]
  simp only [Option.getD_some]
  rw [intRangeClamp_of_f64_exact lo hi v hlo1 hlo2 hhi1 hhi2 hv1 hv2,
    specClamp_eq_max_min lo hi v hord]

/-- Lookup after a cons. -/
theorem lookupS_cons {α : Type} (x : String × α) (l : List (String × α)) (k : String) :
    lookupS (x :: l) k = if x.1 = k then some x.2 else lookupS l k := by
  by_cases h : x.1 = k
  · simp [lookupS, List.find?, h]
  · simp [lookupS, List.find?, h]

/-- Lookup through an insert-or-overwrite. -/
theorem lookupS_upsertS {α : Type} (k2 : String) (v : α) (m : List (String × α)) (k : String) :
    lookupS (upsertS k2 v m) k = if k2 = k then some v else lookupS m k := by
  induction m with
  | nil =>
    by_cases h : k2 = k <;> simp [lookupS, upsertS, List.find?, h]
  | cons hd tl ih =>
    show lookupS (if hd.1 = k2 then (k2, v) :: tl else hd :: upsertS k2 v tl) k = _
    by_cases h0 : hd.1 = k2
    · rw [if_pos h0, lookupS_cons, lookupS_cons]
      by_cases h : k2 = k
      · rw [if_pos h, if_pos h]
      · rw [if_neg h, if_neg h, if_neg (h0 ▸ h : ¬hd.1 = k)]
    · rw [if_neg h0, lookupS_cons, lookupS_cons, ih]
      by_cases h : hd.1 = k
      · have hne : ¬k2 = k := fun hc => h0 (h.trans hc.symm)
        rw [if_pos h, if_neg hne, if_pos h]
      · by_cases h2 : k2 = k
        · rw [if_pos h2, if_neg h, if_pos h2]
        · rw [if_neg h2, if_neg h, if_neg h2]

/-- Inserting preserves presence of every key. -/
theorem lookupS_upsertS_isSome {α : Type} (k2 : String) (v : α) (m : List (String × α))
    (k : String) (h : (lookupS m k).isSome = true) :
    (lookupS (upsertS k2 v m) k).isSome = true := by
  rw [lookupS_upsertS]
  by_cases hk : k2 = k
  · rw [if_pos hk]; rfl
  · rw [if_neg hk]; exact h

/-- The compound-id map built by `expandSubgraphNode` maps every member
node's identity to its compound identifier. -/
theorem lookupI_idMap (instId : Int) (nodes : List GraphNode) (m : GraphNode)
    (hm : m ∈ nodes) :
    lookupI (nodes.map (fun n => (n.id, compoundKey instId n.id))) m.id
      = some (compoundKey instId m.id) := by
  induction nodes with
  | nil => cases hm
  | cons n rest ih =>
    by_cases h : n.id = m.id
    · simp [lookupI, List.find?, h]
    · rcases List.mem_cons.mp hm with hEq | hMem
      · exact absurd (hEq ▸ rfl) h
      · simp only [List.map_cons, lookupI, List.find?]
        rw [show (decide (n.id = m.id)) = false by simp [h]]
        exact ih hMem

/-- The node loop only ever adds expanded entries, provided the nested
expansion call does too. -/
theorem processNodesWith_mono
    (recExpand : Expander → GraphNode → SubgraphDef → Option SubgraphDef →
                 List (Int × IVal) → Option Expander)
    (hrec : ∀ e n sgn ps pm e2, recExpand e n sgn ps pm = some e2 →
        ∀ k, (lookupS e.expandedNodes k).isSome = true →
             (lookupS e2.expandedNodes k).isSome = true) :
    ∀ (l : List GraphNode) (e : Expander) (inst : GraphNode) (sg : SubgraphDef)
      (idMap : List (Int × String)) (im : List (Int × IVal)) (e2 : Expander),
      processNodesWith recExpand e inst sg idMap im l = some e2 →
      ∀ k, (lookupS e.expandedNodes k).isSome = true →
           (lookupS e2.expandedNodes k).isSome = true := by
  intro l
  induction l with
  | nil =>
    intro e inst sg idMap im e2 h k hk
    injection h with h
    exact h ▸ hk
  | cons n rest ih =>
    intro e inst sg idMap im e2 h k hk
    simp only [processNodesWith] at h
    split at h
    · exact ih e inst sg idMap im e2 h k hk
    · split at h
      · rename_i nestedSg _
        split at h
        · exact absurd h (by simp)
        · rename_i e2x hx
          have hstep := hrec _ _ _ _ _ _ hx k
          exact ih e2x inst sg idMap im e2 h k (hstep hk)
      · have hpres := lookupS_upsertS_isSome ((lookupI idMap n.id).getD "")
          ({ originalID := n.id, expandedID := (lookupI idMap n.id).getD "", node := n,
             subgraphDefId := some sg.id, instanceId := some inst.id,
             inputMapping := buildInternalInputMapping e sg idMap im n } : ExpandedNode)
          e.expandedNodes k hk
        exact ih _ inst sg idMap im e2 h k hpres

/-- The expansion of one instance only ever adds expanded entries. -/
theorem expandSubgraphNode_mono :
    ∀ (fuel : Nat) (e : Expander) (inst : GraphNode) (sg : SubgraphDef)
      (ps : Option SubgraphDef) (pm : List (Int × IVal)) (e2 : Expander),
      expandSubgraphNode fuel e inst sg ps pm = some e2 →
      ∀ k, (lookupS e.expandedNodes k).isSome = true →
           (lookupS e2.expandedNodes k).isSome = true := by
  intro fuel
  induction fuel with
  | zero => intro e inst sg ps pm e2 h; exact absurd h (by simp [expandSubgraphNode])
  | succ fuel ih =>
    intro e inst sg ps pm e2 h k hk
    simp only [expandSubgraphNode] at h
    split at h
    · exact absurd h (by simp)
    · rename_i e2x hx
      injection h with h
      subst h
      have hm2 := processNodesWith_mono (expandSubgraphNode fuel)
        (fun e n sgn ps pm e2 hcall => ih e n sgn ps pm e2 hcall)
        sg.nodes _ inst sg _ _ e2x hx k
      exact hm2 hk

/-- The node loop never changes the graph, provided the nested expansion
call does not. -/
theorem processNodesWith_graph
    (recExpand : Expander → GraphNode → SubgraphDef → Option SubgraphDef →
                 List (Int × IVal) → Option Expander)
    (hrec : ∀ e n sgn ps pm e2, recExpand e n sgn ps pm = some e2 → e2.graph = e.graph) :
    ∀ (l : List GraphNode) (e : Expander) (inst : GraphNode) (sg : SubgraphDef)
      (idMap : List (Int × String)) (im : List (Int × IVal)) (e2 : Expander),
      processNodesWith recExpand e inst sg idMap im l = some e2 → e2.graph = e.graph := by
  intro l
  induction l with
  | nil =>
    intro e inst sg idMap im e2 h
    injection h with h
    exact h ▸ rfl
  | cons n rest ih =>
    intro e inst sg idMap im e2 h
    simp only [processNodesWith] at h
    split at h
    · exact ih e inst sg idMap im e2 h
    · split at h
      · split at h
        · exact absurd h (by simp)
        · rename_i e2x hx
          have hg1 := hrec _ _ _ _ _ _ hx
          exact (ih e2x inst sg idMap im e2 h).trans hg1
      · have hg := ih _ inst sg idMap im e2 h
        exact hg

/-- Expanding an instance never changes the graph. -/
theorem expandSubgraphNode_graph :
    ∀ (fuel : Nat) (e : Expander) (inst : GraphNode) (sg : SubgraphDef)
      (ps : Option SubgraphDef) (pm : List (Int × IVal)) (e2 : Expander),
      expandSubgraphNode fuel e inst sg ps pm = some e2 → e2.graph = e.graph := by
  intro fuel
  induction fuel with
  | zero => intro e inst sg ps pm e2 h; exact absurd h (by simp [expandSubgraphNode])
  | succ fuel ih =>
    intro e inst sg ps pm e2 h
    simp only [expandSubgraphNode] at h
    split at h
    · exact absurd h (by simp)
    · rename_i e2x hx
      injection h with h
      subst h
      have hg := processNodesWith_graph (expandSubgraphNode fuel)
        (fun e n sgn ps pm e2 hcall => ih e n sgn ps pm e2 hcall)
        sg.nodes _ inst sg _ _ e2x hx
      exact hg

/-- Every non-virtual, non-muted, non-instance node of the processed list
ends up registered under its compound-id-map key. -/
theorem processNodesWith_registers
    (recExpand : Expander → GraphNode → SubgraphDef → Option SubgraphDef →
                 List (Int × IVal) → Option Expander)
    (hrecMono : ∀ e n sgn ps pm e2, recExpand e n sgn ps pm = some e2 →
        ∀ k, (lookupS e.expandedNodes k).isSome = true →
             (lookupS e2.expandedNodes k).isSome = true)
    (hrecGraph : ∀ e n sgn ps pm e2, recExpand e n sgn ps pm = some e2 → e2.graph = e.graph) :
    ∀ (l : List GraphNode) (e : Expander) (inst : GraphNode) (sg : SubgraphDef)
      (idMap : List (Int × String)) (im : List (Int × IVal)) (e2 : Expander),
      processNodesWith recExpand e inst sg idMap im l = some e2 →
      ∀ m ∈ l, m.IsVirtual = false → ¬ m.mode = 2 →
        e.graph.subgraphByType m.type = none →
        (lookupS e2.expandedNodes ((lookupI idMap m.id).getD "")).isSome = true := by
  intro l
  induction l with
  | nil => intro e inst sg idMap im e2 h m hm; cases hm
  | cons n rest ih =>
    intro e inst sg idMap im e2 h m hm hv hmode hns
    simp only [processNodesWith] at h
    rcases List.mem_cons.mp hm with hEq | hMem
    · subst hEq
      rw [if_neg (by simp [hv, hmode])] at h
      rw [show m.type = m.type from rfl] at hns
      rw [hns] at h
      refine processNodesWith_mono recExpand hrecMono rest _ inst sg idMap im e2 h _ ?_
      rw [lookupS_upsertS]
      rw [if_pos rfl]
      rfl
    · split at h
      · exact ih e inst sg idMap im e2 h m hMem hv hmode hns
      · split at h
        · split at h
          · exact absurd h (by simp)
          · rename_i e2x hx
            have hg1 := hrecGraph _ _ _ _ _ _ hx
            refine ih e2x inst sg idMap im e2 h m hMem hv hmode ?_
            rw [hg1]
            exact hns
        · have hreg2 := ih _ inst sg idMap im e2 h m hMem hv hmode
          exact hreg2 hns

/-- C2 amended: whenever the expander expands a subgraph instance node
`J` — at any nesting position, in particular for a `J` nested inside an
enclosing instance `I` — every non-virtual, non-muted internal node `m`
of `J`'s definition that is not itself a subgraph instance is registered
under the compound identifier `"J:m"`, formed from the immediately
enclosing instance identifier only; enclosing outer instance identifiers
such as `I` do not appear in the key. -/
theorem C2_nested_ids_amended (fuel : Nat) (e : Expander) (inst : GraphNode)
    (sg : SubgraphDef) (ps : Option SubgraphDef) (pm : List (Int × IVal)) (e2 : Expander)
    (h : expandSubgraphNode fuel e inst sg ps pm = some e2)
    (m : GraphNode) (hm : m ∈ sg.nodes) (hv : m.IsVirtual = false) (hmode : ¬ m.mode = 2)
    (hns : e.graph.subgraphByType m.type = none) :
    (lookupS e2.expandedNodes (compoundKey inst.id m.id)).isSome = true := by
  cases fuel with
  | zero => exact absurd h (by simp [expandSubgraphNode])
  | succ fuel =>
    simp only [expandSubgraphNode] at h
    split at h
    · exact absurd h (by simp)
    · rename_i e2x hx
      injection h with h
      subst h
      show (lookupS e2x.expandedNodes (compoundKey inst.id m.id)).isSome = true
      have hkey : ((lookupI (sg.nodes.map (fun n => (n.id, compoundKey inst.id n.id))) m.id).getD "")
          = compoundKey inst.id m.id := by
        rw [lookupI_idMap inst.id sg.nodes m hm]
        rfl
      rw [← hkey]
      have hreg := processNodesWith_registers (expandSubgraphNode fuel)
        (fun e n sgn ps pm e2 hcall => expandSubgraphNode_mono fuel e n sgn ps pm e2 hcall)
        (fun e n sgn ps pm e2 hcall => expandSubgraphNode_graph fuel e n sgn ps pm e2 hcall)
        sg.nodes _ inst sg _ _ e2x hx m hm hv hmode
      exact hreg hns

/-- C2 amended witness: in the nesting scenario the inner expansion of
instance 7 registers node 3 under `"7:3"`. -/
theorem C2_nested_ids_amended_witness :
    (lookupS ((c2InnerExpanded.getD (newSubgraphExpander c2Graph)).expandedNodes)
        (compoundKey c2NodeJ.id c2NodeM.id)).isSome = true :=
  C2_nested_ids_amended 1 (newSubgraphExpander c2Graph) c2NodeJ c2InnerDef
    (some c2OuterDef) [] (c2InnerExpanded.getD (newSubgraphExpander c2Graph)) rfl
    c2NodeM (by decide) (by decide) (by decide) rfl

/-- `wrap64` is the identity inside the `int64` range. -/
theorem wrap64_of_range (z : Int) (h1 : -(2 ^ 63) ≤ z) (h2 : z < 2 ^ 63) :
    wrap64 z = z := by
  show (z + 2 ^ 63) % 2 ^ 64 - 2 ^ 63 = z
  rw [Int.emod_eq_of_lt (by omega) (by omega)]
  omega

/-- With the constructors' delays, `getReconnectDelay` computes exactly
the min-capped power of two while the counter is at most 33 (beyond
that the `int64` duration product would overflow), and always increments
the counter. -/
theorem getReconnectDelay_default (retry r : Nat) (h : r ≤ 33) :
    getReconnectDelay (newComfyClientWithTimeoutConfig retry) r
      = (min (1000000000 * 2 ^ r) 10000000000, r + 1) := by
  have hple : (2 : Int) ^ r ≤ 2 ^ 33 := pow_le_pow_right₀ (by norm_num) h
  have hpos : (0 : Int) ≤ 2 ^ r := by positivity
  have hlt : (2 : Int) ^ r < 2 ^ 63 := lt_of_le_of_lt hple (by norm_num)
  have hpow : goPow2Duration r = (2 : Int) ^ r :=
    int64ofF64_of_range _ (le_trans (by norm_num) hpos) hlt
  have hmul : (1000000000 : Int) * 2 ^ r < 2 ^ 63 :=
    lt_of_le_of_lt (mul_le_mul_of_nonneg_left hple (by norm_num)) (by norm_num)
  have hmul0 : (0 : Int) ≤ 1000000000 * 2 ^ r := by positivity
  show (if (10000000000 : Int) < wrap64 (1000000000 * goPow2Duration r)
        then (10000000000 : Int) else wrap64 (1000000000 * goPow2Duration r), r + 1)
      = (min (1000000000 * 2 ^ r) 10000000000, r + 1)
  rw [hpow, wrap64_of_range _ (le_trans (by norm_num) hmul0) hmul]
  by_cases hc : (10000000000 : Int) < 1000000000 * 2 ^ r
  · rw [if_pos hc, min_eq_right (le_of_lt hc)]
  · rw [if_neg hc, min_eq_left (le_of_not_lt hc)]

/-- The second component of `getReconnectDelay` is the incremented
counter. -/
theorem getReconnectDelay_snd (cfg : WSConfig) (r : Nat) :
    (getReconnectDelay cfg r).2 = r + 1 := rfl

/-- Unfolding step of the attempt loop on a failure that does not exhaust
the local retry budget: record the delay at the current persistent
counter, increment it, and recurse. -/
theorem connectionAttemptLoop_false_step (cfg : WSConfig) (rest : List Bool)
    (retries : Nat) (st : WSConnState) (hr : ¬ cfg.maxRetry < retries + 1) :
    connectionAttemptLoop cfg (false :: rest) retries st
      = ((connectionAttemptLoop cfg rest (retries + 1)
          { retryCount := st.retryCount + 1, isConnected := false }).1,
         (getReconnectDelay cfg st.retryCount).1 ::
         (connectionAttemptLoop cfg rest (retries + 1)
          { retryCount := st.retryCount + 1, isConnected := false }).2) := by
  simp [connectionAttemptLoop, hr, getReconnectDelay_snd]

/-- Unfolding step of the attempt loop on the failure that exhausts the
local retry budget: the manager gives up, leaving the channel not
connected and the persistent counter untouched. -/
theorem connectionAttemptLoop_giveup (cfg : WSConfig) (rest : List Bool)
    (retries : Nat) (st : WSConnState) (hr : cfg.maxRetry < retries + 1) :
    connectionAttemptLoop cfg (false :: rest) retries st
      = ({ retryCount := st.retryCount, isConnected := false }, []) := by
  simp [connectionAttemptLoop, hr]

/-- Every wait of the attempt loop comes from `getReconnectDelay` at the
persistent counter's value at that point: the counter the loop was
entered with plus the number of earlier waits. -/
theorem connectionAttemptLoop_delay_at (cfg : WSConfig) :
    ∀ (outcomes : List Bool) (retries : Nat) (st : WSConnState) (k : Nat),
      k < (connectionAttemptLoop cfg outcomes retries st).2.length →
      (connectionAttemptLoop cfg outcomes retries st).2.get? k
        = some (getReconnectDelay cfg (st.retryCount + k)).1 := by
  intro outcomes
  induction outcomes with
  | nil =>
    intro retries st k h
    simp [connectionAttemptLoop] at h
  | cons b rest ih =>
    intro retries st k h
    by_cases hb : b = true
    · subst hb
      simp [connectionAttemptLoop] at h
    · rw [Bool.not_eq_true] at hb
      subst hb
      by_cases hr : cfg.maxRetry < retries + 1
      · rw [connectionAttemptLoop_giveup cfg rest retries st hr] at h
        simp at h
      · rw [connectionAttemptLoop_false_step cfg rest retries st hr] at h ⊢
        cases k with
        | zero => simp
        | succ k =>
          simp only [List.get?_cons_succ]
          simp only [List.length_cons, Nat.succ_lt_succ_iff] at h
          rw [ih _ _ k h]
          show some (getReconnectDelay cfg (st.retryCount + 1 + k)).1
              = some (getReconnectDelay cfg (st.retryCount + (k + 1))).1
          have harith : st.retryCount + 1 + k = st.retryCount + (k + 1) := by omega
          rw [harith]

/-- The attempt loop never resets the persistent counter: whatever the
outcomes, it ends at the value it was entered with plus the number of
waits. -/
theorem connectionAttemptLoop_retryCount (cfg : WSConfig) :
    ∀ (outcomes : List Bool) (retries : Nat) (st : WSConnState),
      (connectionAttemptLoop cfg outcomes retries st).1.retryCount
        = st.retryCount + (connectionAttemptLoop cfg outcomes retries st).2.length := by
  intro outcomes
  induction outcomes with
  | nil =>
    intro retries st
    simp [connectionAttemptLoop]
  | cons b rest ih =>
    intro retries st
    by_cases hb : b = true
    · subst hb
      simp [connectionAttemptLoop]
    · rw [Bool.not_eq_true] at hb
      subst hb
      by_cases hr : cfg.maxRetry < retries + 1
      · rw [connectionAttemptLoop_giveup cfg rest retries st hr]
        simp
      · rw [connectionAttemptLoop_false_step cfg rest retries st hr]
        have hrec := ih (retries + 1) { retryCount := st.retryCount + 1, isConnected := false }
        simp only [List.length_cons]
        show (connectionAttemptLoop cfg rest (retries + 1)
            { retryCount := st.retryCount + 1, isConnected := false }).1.retryCount
          = st.retryCount + ((connectionAttemptLoop cfg rest (retries + 1)
            { retryCount := st.retryCount + 1, isConnected := false }).2.length + 1)
        rw [hrec]
        show st.retryCount + 1 + _ = _
        omega

/-- When every attempt fails and there are more outcomes than the local
retry budget allows, the manager gives up not connected, having waited
once per allowed retry. -/
theorem connectionAttemptLoop_all_fail (cfg : WSConfig) :
    ∀ (outcomes : List Bool) (retries : Nat) (st : WSConnState),
      (∀ x ∈ outcomes, x = false) →
      cfg.maxRetry - retries < outcomes.length →
      ((connectionAttemptLoop cfg outcomes retries st).1.isConnected = false ∧
       (connectionAttemptLoop cfg outcomes retries st).2.length = cfg.maxRetry - retries) := by
  intro outcomes
  induction outcomes with
  | nil =>
    intro retries st hall hlen
    simp at hlen
  | cons b rest ih =>
    intro retries st hall hlen
    have hb : b = false := hall b (List.mem_cons_self b rest)
    subst hb
    by_cases hr : cfg.maxRetry < retries + 1
    · rw [connectionAttemptLoop_giveup cfg rest retries st hr]
      have h0 : cfg.maxRetry - retries = 0 := by omega
      exact ⟨rfl, by rw [h0]; rfl⟩
    · rw [connectionAttemptLoop_false_step cfg rest retries st hr]
      have hall2 : ∀ x ∈ rest, x = false := fun x hx => hall x (List.mem_cons_of_mem _ hx)
      have hlen2 : cfg.maxRetry - (retries + 1) < rest.length := by
        simp only [List.length_cons] at hlen
        omega
      obtain ⟨hconn, hcount⟩ := ih (retries + 1)
        { retryCount := st.retryCount + 1, isConnected := false } hall2 hlen2
      refine ⟨hconn, ?_⟩
      simp only [List.length_cons, hcount]
      omega

/-- C3 amended: with the constructors' defaults — base 1 s and maxDelay
10 s (nanosecond `time.Duration` values), `maxRetry` 5 in
`NewComfyClient` and configurable in `NewComfyClientWithTimeout` — every
wait of a `ConnectWithManager` invocation entered with persistent
counter `r` equals `min(base · 2^(r + k), maxDelay)` at wait index `k`
(while `r + k ≤ 33`, below the `int64` overflow of the duration
product); the persistent counter ends at `r` plus the number of waits
and is never reset; and when every attempt fails the invocation stops
after `maxRetry` waits with the channel not connected. -/
theorem C3_reconnect_backoff_amended (retry : Nat) (outcomes : List Bool) (st : WSConnState) :
    (newComfyClientConfig.baseDelay = 1000000000 ∧
     newComfyClientConfig.maxDelay = 10000000000 ∧
     newComfyClientConfig.maxRetry = 5 ∧
     (newComfyClientWithTimeoutConfig retry).maxRetry = retry) ∧
    (∀ k, k < (connectWithManager (newComfyClientWithTimeoutConfig retry) outcomes st).2.length →
      st.retryCount + k ≤ 33 →
      (connectWithManager (newComfyClientWithTimeoutConfig retry) outcomes st).2.get? k
        = some (min (1000000000 * 2 ^ (st.retryCount + k)) 10000000000)) ∧
    ((connectWithManager (newComfyClientWithTimeoutConfig retry) outcomes st).1.retryCount
      = st.retryCount
        + (connectWithManager (newComfyClientWithTimeoutConfig retry) outcomes st).2.length) ∧
    ((∀ x ∈ outcomes, x = false) → retry < outcomes.length →
      ((connectWithManager (newComfyClientWithTimeoutConfig retry) outcomes
          st).1.isConnected = false ∧
       (connectWithManager (newComfyClientWithTimeoutConfig retry) outcomes
          st).2.length = retry)) := by
  refine ⟨⟨rfl, rfl, rfl, rfl⟩, ?_, ?_, ?_⟩
  · intro k hk hle
    have hdel := connectionAttemptLoop_delay_at (newComfyClientWithTimeoutConfig retry)
      outcomes 0 st k
    have hdel2 := hdel hk
    rw [getReconnectDelay_default retry (st.retryCount + k) hle] at hdel2
    exact hdel2
  · exact connectionAttemptLoop_retryCount (newComfyClientWithTimeoutConfig retry) outcomes 0 st
  · intro hall hlen
    have h4 := connectionAttemptLoop_all_fail (newComfyClientWithTimeoutConfig retry)
      outcomes 0 st hall
    have hlen2 : (newComfyClientWithTimeoutConfig retry).maxRetry - 0 < outcomes.length := by
      show retry - 0 < outcomes.length
      omega
    obtain ⟨hconn, hcount⟩ := h4 hlen2
    refine ⟨hconn, ?_⟩
    rw [Nat.sub_zero] at hcount
    exact hcount

/-- C3 amended witness: a fresh connection with `maxRetry = 2` and three
failures waits 1 s then 2 s, and ends not connected. -/
theorem C3_reconnect_backoff_amended_witness :
    (connectWithManager (newComfyClientWithTimeoutConfig 2) [false, false, false]
        { retryCount := 0, isConnected := false }).2.get? 1 = some 2000000000 ∧
    (connectWithManager (newComfyClientWithTimeoutConfig 2) [false, false, false]
        { retryCount := 0, isConnected := false }).1.isConnected = false :=
  ⟨(C3_reconnect_backoff_amended 2 [false, false, false]
      { retryCount := 0, isConnected := false }).2.1 1 (by decide) (by decide),
   ((C3_reconnect_backoff_amended 2 [false, false, false]
      { retryCount := 0, isConnected := false }).2.2.2 (by decide) (by decide)).1⟩

/-- C3 counterexample: the persistent `RetryCount` survives a successful
connection.  A first `ConnectWithManager` invocation that connects after
two failures waits 1 s then 2 s and leaves `RetryCount = 2`; after the
channel is lost, the next invocation's first wait is
`min(base · 2^2, maxDelay)` = 4 s, not the `min(base · 2^0, maxDelay)`
= 1 s that the claim's formula gives when its attempt counter restarts
at the loss. -/
theorem C3_reconnect_backoff_counterexample :
    connectWithManager newComfyClientConfig [false, false, true]
        { retryCount := 0, isConnected := false }
      = ({ retryCount := 2, isConnected := true }, [1000000000, 2000000000]) ∧
    (connectWithManager newComfyClientConfig [false, true]
        { retryCount := 2, isConnected := false }).2 = [4000000000] ∧
    (4000000000 : Int) ≠ min (1000000000 * 2 ^ 0) 10000000000 :=
  ⟨rfl, rfl, by decide⟩

/-- `linkTupleField` is exact in the `float64`-exact range. -/
theorem linkTupleField_of_f64_exact (z : Int) (h1 : -(2 ^ 53) ≤ z) (h2 : z ≤ 2 ^ 53) :
    linkTupleField (.jnum z) = some z := by
  show some (int64ofF64 (f64round z)) = some z
  rw [f64round_of_abs_le z h1 h2, int64ofF64_of_range z (by omega) (by omega)]

/-- `intField` is exact in the `int64` range. -/
theorem intField_of_range (z : Int) (h1 : -(2 ^ 63) ≤ z) (h2 : z < 2 ^ 63) :
    intField (.jnum z) = some z := by
  show (if z < -(2 ^ 63) ∨ 2 ^ 63 ≤ z then none else some z) = some z
  rw [if_neg (by omega)]

/-- Object-decode step for the `id` field. -/
theorem objFieldStep_id (z : Int) (rest : List (String × JVal)) (l : Link)
    (h : intField (.jnum z) = some z) :
    unmarshalLinkObjFields (("id", .jnum z) :: rest) l
      = unmarshalLinkObjFields rest { l with id := z } := by
  have hred : unmarshalLinkObjFields (("id", .jnum z) :: rest) l
      = match intField (.jnum z) with
        | some n => unmarshalLinkObjFields rest { l with id := n }
        | none => none := rfl
  rw [hred, h]

/-- Object-decode step for the `origin_id` field. -/
theorem objFieldStep_originID (z : Int) (rest : List (String × JVal)) (l : Link)
    (h : intField (.jnum z) = some z) :
    unmarshalLinkObjFields (("origin_id", .jnum z) :: rest) l
      = unmarshalLinkObjFields rest { l with originID := z } := by
  have hred : unmarshalLinkObjFields (("origin_id", .jnum z) :: rest) l
      = match intField (.jnum z) with
        | some n => unmarshalLinkObjFields rest { l with originID := n }
        | none => none := rfl
  rw [hred, h]

/-- Object-decode step for the `origin_slot` field. -/
theorem objFieldStep_originSlot (z : Int) (rest : List (String × JVal)) (l : Link)
    (h : intField (.jnum z) = some z) :
    unmarshalLinkObjFields (("origin_slot", .jnum z) :: rest) l
      = unmarshalLinkObjFields rest { l with originSlot := z } := by
  have hred : unmarshalLinkObjFields (("origin_slot", .jnum z) :: rest) l
      = match intField (.jnum z) with
        | some n => unmarshalLinkObjFields rest { l with originSlot := n }
        | none => none := rfl
  rw [hred, h]

/-- Object-decode step for the `target_id` field. -/
theorem objFieldStep_targetID (z : Int) (rest : List (String × JVal)) (l : Link)
    (h : intField (.jnum z) = some z) :
    unmarshalLinkObjFields (("target_id", .jnum z) :: rest) l
      = unmarshalLinkObjFields rest { l with targetID := z } := by
  have hred : unmarshalLinkObjFields (("target_id", .jnum z) :: rest) l
      = match intField (.jnum z) with
        | some n => unmarshalLinkObjFields rest { l with targetID := n }
        | none => none := rfl
  rw [hred, h]

/-- Object-decode step for the `target_slot` field. -/
theorem objFieldStep_targetSlot (z : Int) (rest : List (String × JVal)) (l : Link)
    (h : intField (.jnum z) = some z) :
    unmarshalLinkObjFields (("target_slot", .jnum z) :: rest) l
      = unmarshalLinkObjFields rest { l with targetSlot := z } := by
  have hred : unmarshalLinkObjFields (("target_slot", .jnum z) :: rest) l
      = match intField (.jnum z) with
        | some n => unmarshalLinkObjFields rest { l with targetSlot := n }
        | none => none := rfl
  rw [hred, h]

/-- C9 amended: decode-then-encode is the identity on the canonical link
wire shapes whose numeric fields are exactly representable in `float64`
(magnitude at most `2 ^ 53`): a 6-tuple re-encodes as the same 6-tuple, a
canonical link object re-encodes as the same object, and a link created
in memory (Go zero `isObjectFormat`) encodes as the 6-tuple.  (Beyond
`2 ^ 53` the tuple decoder's `float64` detour breaks the identity; see
the counterexample.) -/
theorem C9_link_roundtrip_amended (id o os t ts : Int) (ty : String)
    (h1 : -(2 ^ 53) ≤ id) (h2 : id ≤ 2 ^ 53)
    (h3 : -(2 ^ 53) ≤ o) (h4 : o ≤ 2 ^ 53)
    (h5 : -(2 ^ 53) ≤ os) (h6 : os ≤ 2 ^ 53)
    (h7 : -(2 ^ 53) ≤ t) (h8 : t ≤ 2 ^ 53)
    (h9 : -(2 ^ 53) ≤ ts) (h10 : ts ≤ 2 ^ 53) :
    unmarshalLink (linkTupleWire id o os t ts ty) = some (Link.fresh id o os t ts ty) ∧
    marshalLink (Link.fresh id o os t ts ty) = linkTupleWire id o os t ts ty ∧
    unmarshalLink (linkObjWire id o os t ts ty)
      = some { Link.fresh id o os t ts ty with isObjectFormat := true } ∧
    marshalLink { Link.fresh id o os t ts ty with isObjectFormat := true }
      = linkObjWire id o os t ts ty := by
  refine ⟨?_, rfl, ?_, rfl⟩
  · show (match linkTupleField (.jnum id), linkTupleField (.jnum o), linkTupleField (.jnum os),
              linkTupleField (.jnum t), linkTupleField (.jnum ts) with
          | some id, some o, some os, some t, some ts =>
            some { id := id, originID := o, originSlot := os, targetID := t,
                   targetSlot := ts, type := ty, isObjectFormat := false }
          | _, _, _, _, _ => none) = some (Link.fresh id o os t ts ty)
    rw [linkTupleField_of_f64_exact id h1 h2, linkTupleField_of_f64_exact o h3 h4,
      linkTupleField_of_f64_exact os h5 h6, linkTupleField_of_f64_exact t h7 h8,
      linkTupleField_of_f64_exact ts h9 h10]
    rfl
  · show unmarshalLinkObjFields
        [("id", .jnum id), ("origin_id", .jnum o), ("origin_slot", .jnum os),
         ("target_id", .jnum t), ("target_slot", .jnum ts), ("type", .jstr ty)]
        { id := 0, originID := 0, originSlot := 0, targetID := 0, targetSlot := 0,
          type := "", isObjectFormat := true }
      = some { Link.fresh id o os t ts ty with isObjectFormat := true }
    rw [objFieldStep_id id _ _ (intField_of_range id (by omega) (by omega)),
      objFieldStep_originID o _ _ (intField_of_range o (by omega) (by omega)),
      objFieldStep_originSlot os _ _ (intField_of_range os (by omega) (by omega)),
      objFieldStep_targetID t _ _ (intField_of_range t (by omega) (by omega)),
      objFieldStep_targetSlot ts _ _ (intField_of_range ts (by omega) (by omega))]
    rfl

/-- C9 amended witness: the spec's own sample tuple and its object
companion round-trip unchanged. -/
theorem C9_link_roundtrip_amended_witness :
    unmarshalLink (linkTupleWire 1 3 0 1 0 "MODEL") = some (Link.fresh 1 3 0 1 0 "MODEL") ∧
    marshalLink (Link.fresh 1 3 0 1 0 "MODEL") = linkTupleWire 1 3 0 1 0 "MODEL" ∧
    unmarshalLink (linkObjWire 1 3 0 1 0 "MODEL")
      = some { Link.fresh 1 3 0 1 0 "MODEL" with isObjectFormat := true } ∧
    marshalLink { Link.fresh 1 3 0 1 0 "MODEL" with isObjectFormat := true }
      = linkObjWire 1 3 0 1 0 "MODEL" :=
  C9_link_roundtrip_amended 1 3 0 1 0 "MODEL"
    (by norm_num) (by norm_num) (by norm_num) (by norm_num) (by norm_num)
    (by norm_num) (by norm_num) (by norm_num) (by norm_num) (by norm_num)

/-- C8 amended witness: range `[1, 10]`, value 99, clamped to 10. -/
theorem C8_int_clamp_amended_witness :
    (setValue (mkIntWidgetProp "steps" 1 10 0 0) (.vInt 99)
        { nodes := [.arrP [.vInt 5]], cells := [] }).1 = .ok () ∧
    getValue (mkIntWidgetProp "steps" 1 10 0 0)
        (setValue (mkIntWidgetProp "steps" 1 10 0 0) (.vInt 99)
          { nodes := [.arrP [.vInt 5]], cells := [] }).2
      = .vInt (specClamp 1 10 99) :=
  C8_int_clamp_amended "steps" 1 10 99 0 0
    { nodes := [.arrP [.vInt 5]], cells := [] } [.vInt 5]
    (by norm_num) (by norm_num) (by norm_num) (by norm_num)
    (by norm_num) (by norm_num) (by norm_num) rfl (by norm_num)


/-- C1: in a loaded workflow where a top-level `SaveImage` node (id 9)
has its `images` input linked to output slot 0 of subgraph instance 57,
and the instance's definition contains an internal `VAEDecode` (id 8)
feeding the definition's output pseudo-node on slot 0, the expanded
prompt (`SubgraphExpander.ExpandAll` followed by `ToPromptNodes`)
contains an entry keyed `"9"` whose `images` input equals the link
reference `["57:8", 0]`, an entry keyed `"57:8"` with class type
`VAEDecode`, and no entry keyed `"57"`. -/
theorem C1_subgraph_expansion_prompt :
    (c1Prompt.bind (fun pr => lookupS pr "9")).map
        (fun pn => (pn.classType, lookupS pn.inputs "images"))
      = some ("SaveImage", some (IVal.vList [IVal.vStrV "57:8", IVal.vIntV 0])) ∧
    (c1Prompt.bind (fun pr => lookupS pr "57:8")).map (fun pn => pn.classType)
      = some "VAEDecode" ∧
    c1Prompt.bind (fun pr => lookupS pr "57") = none :=
  ⟨rfl, rfl, rfl⟩

/-- C2 counterexample: in the nested workflow `c2Graph` — top-level
instance `I = 5` whose definition contains nested instance `J = 7` whose
definition contains the plain node `m = 3` — the expander registers the
innermost node under `"7:3"`; no node is registered under the compound
`"5:7:3"` that the claim requires. -/
theorem C2_nested_id_counterexample :
    (expandAll c2Graph 3).map (fun e =>
        ((lookupS e.expandedNodes "5:7:3").isSome,
         (lookupS e.expandedNodes "7:3").map (fun ex => ex.originalID)))
      = some (false, some 3) :=
  rfl

/-- C4: for the error-envelope body of spec scenario 5 (which has no
`node_errors` member) `QueuePrompt` does not detect the envelope: the
body unmarshal s into `QueueItem` without error (the unknown `error`
field is ignored), so the call returns success and registers a
submission under the empty prompt identifier.  Only when the envelope
also carries `node_errors: []` does the unmarshal fail and the error
branch return the envelope's message without registering. -/
theorem C4_error_envelope_ignored :
    queuePromptHandleResponse c4EnvelopeBody
      = (.ok { promptID := "", number := 0, nodeErrors := none }, some "") ∧
    queuePromptHandleResponse c4EnvelopeBodyFull
      = (.error "Prompt has no outputs", none) :=
  ⟨rfl, rfl⟩

/-- C5: the `executing` and `executed` decoders convert the wire node
identifier with `strconv.Atoi` and therefore fail on the compound
identifier `"57:8"` that subgraph expansion puts on the wire, while a
plain integer identifier and the `execution_error` frame (which keeps the
identifier as a string) succeed. -/
theorem C5_node_ids_decoded_as_int :
    unmarshalExecuting (some "57:8") "p" = .error "invalid syntax" ∧
    unmarshalExecutedNode "57:8" "p" = .error "invalid syntax" ∧
    unmarshalExecuting (some "57") "p" = .ok { node := some 57, promptID := "p" } ∧
    unmarshalExecutionErrorNode "57:8" = "57:8" :=
  ⟨rfl, rfl, rfl, rfl⟩

/-- C6: the required-inputs branch of `PopulateInputProperties` appends a
non-serialisable `control_after_generate` COMBO exactly for an INT
`seed`, as the claim states; but the optional-inputs branch, through the
unparenthesised condition and the missing `SetSerializable(false)`,
appends a serialisable `control_after_generate` even for a FLOAT
`seed`. -/
theorem C6_optional_seed_bug :
    populateInputProperties [("seed", seedIntInput)] [] =
      [{ name := "seed", typeString := "INT", serializable := true,
         optional := false, index := 0, comboValues := [] },
       { name := "control_after_generate", typeString := "COMBO", serializable := false,
         optional := false, index := 1,
         comboValues := ["fixed", "increment", "decrement", "randomize"] }] ∧
    populateInputProperties [("seed", seedFloatInput)] [] =
      [{ name := "seed", typeString := "FLOAT", serializable := true,
         optional := false, index := 0, comboValues := [] }] ∧
    populateInputProperties [] [("seed", seedFloatInput)] =
      [{ name := "seed", typeString := "FLOAT", serializable := true,
         optional := true, index := 0, comboValues := [] },
       { name := "control_after_generate", typeString := "COMBO", serializable := true,
         optional := true, index := 1,
         comboValues := ["fixed", "increment", "decrement", "randomize"] }] :=
  ⟨rfl, rfl, rfl⟩

/-- C7 counterexample: after `SetFilename("b.png")` the bound COMBO's
current filename is `"b.png"`, but the IMAGEUPLOAD property's `GetValue`
returns `"image"` — the combo's input name, fixed at construction — not
the filename the claim requires. -/
theorem C7_imageupload_counterexample :
    getValue c7Upload c7After.2 = .vStr "image" ∧
    getValue c7After.1 c7After.2 = .vStr "b.png" ∧
    GoValue.vStr "image" ≠ GoValue.vStr "b.png" :=
  ⟨rfl, rfl, by decide⟩

/-- C7 amended: the value an IMAGEUPLOAD property contributes at
serialisation is its construction-time override — the bound COMBO's
input name — in every store, in particular still after
`SetFilename(f)`. -/
theorem C7_imageupload_override_is_combo_name (iname : String) (target : Property)
    (idx : Int) (st : Store) (f : String) :
    getValue (newImageUploadProperty iname target idx) st = .vStr target.name ∧
    getValue (newImageUploadProperty iname target idx) (setFilename target f st).2
      = .vStr target.name :=
  ⟨rfl, rfl⟩

/-- C10: whenever the kind-specific parse of `SetValue` rejects the
incoming value, `SetValue` returns the conversion error and the entire
store — widget payloads, direct cells, and every secondary's target —
is returned unchanged. -/
theorem C10_setvalue_reject_no_mutation (p : Property) (v : GoValue) (st : Store)
    (h : valueFromGo p.kind v = none) :
    setValue p v st = (.error "could not get converted type", st) := by
  cases p with
  | mk core kind secs =>
    simp only [Property.kind] at h
    simp [setValue, h]

/-- C10 witness: a COMBO property rejects a value outside its list and
the store is untouched. -/
theorem C10_setvalue_reject_no_mutation_witness :
    valueFromGo c10Combo.kind (.vStr "abc") = none ∧
    setValue c10Combo (.vStr "abc") c10Store
      = (.error "could not get converted type", c10Store) :=
  ⟨rfl, C10_setvalue_reject_no_mutation c10Combo (.vStr "abc") c10Store rfl⟩

/-- C8 counterexample: for the declared range `[0, 2^62]` and the
in-range value `v = 2^62 - 1`, `SetValue` succeeds but the stored value
is `2^62` — the `float64` detour of the clamp rounds `v` up — so
`GetValue` differs from `clamp(v, lo, hi) = v`. -/
theorem C8_int_clamp_counterexample :
    (setValue c8Prop (.vInt 4611686018427387903) c8Store).1 = .ok () ∧
    getValue c8Prop (setValue c8Prop (.vInt 4611686018427387903) c8Store).2
      = .vInt 4611686018427387904 ∧
    specClamp 0 4611686018427387904 4611686018427387903 = 4611686018427387903 ∧
    (4611686018427387904 : Int) ≠ 4611686018427387903 :=
  ⟨rfl, rfl, by decide, by decide⟩

/-- C9 counterexample: the 6-tuple `[2^53 + 1, 3, 0, 1, 0, "MODEL"]`
decodes (through `float64`) to a link with id `2^53`, which re-encodes
as a different 6-tuple, so decode-then-encode is not the identity on
this decodable link. -/
theorem C9_link_roundtrip_counterexample :
    unmarshalLink (linkTupleWire 9007199254740993 3 0 1 0 "MODEL")
      = some { id := 9007199254740992, originID := 3, originSlot := 0, targetID := 1,
               targetSlot := 0, type := "MODEL", isObjectFormat := false } ∧
    marshalLink { id := 9007199254740992, originID := 3, originSlot := 0, targetID := 1,
                  targetSlot := 0, type := "MODEL", isObjectFormat := false }
      = linkTupleWire 9007199254740992 3 0 1 0 "MODEL" ∧
    linkTupleWire 9007199254740992 3 0 1 0 "MODEL"
      ≠ linkTupleWire 9007199254740993 3 0 1 0 "MODEL" := by
  refine ⟨rfl, rfl, ?_⟩
  simp [linkTupleWire]

end Comfy2go
